import Mathlib

/-!
Verification of the packet terminal-multiplexer core: session registry,
broadcast routing, the vim-style command language of `BroadcastInput.tsx`,
and the Cisco output highlighter of `ciscoHighlight.ts`.

Strings are modelled as `List Char` (`Str`).  JavaScript `string | null`
values are `Option Str`; a further `undefined` level (an optional
parameter) is `Option (Option Str)`.  JavaScript string truthiness
(`null` and `""` are falsy) is `strTruthy`.  `Char.toLower` models the
case-insensitive comparisons of the source (ASCII case folding) and
`Char.isWhitespace` models the whitespace classes of `trim` and `\s`.
-/

set_option autoImplicit false

namespace Packet

abbrev Str := List Char

/-- Truthiness of a JavaScript `string | null` value: `null` and the empty
string are falsy. -/
def strTruthy : Option Str → Bool
  | none => false
  | some s => !s.isEmpty

/-- Lower-casing of a string, modelling `String.prototype.toLowerCase` on
ASCII data. -/
def lowerStr (s : Str) : Str := s.map Char.toLower

/-- `line.trim()`: remove leading and trailing whitespace. -/
def trimStr (s : Str) : Str :=
  ((s.dropWhile Char.isWhitespace).reverse.dropWhile Char.isWhitespace).reverse

/-- `a.startsWith(b)` on strings. -/
def startsWithStr (s p : Str) : Bool := p.isPrefixOf s

/-- `line.slice(line.indexOf(" ") + 1)`: everything after the first space
character; when there is no space, `indexOf` is `-1` and the slice is the
whole line. -/
def afterFirstSpace (line : Str) : Str :=
  match line.findIdx? (fun c => c == ' ') with
  | some i => line.drop (i + 1)
  | none => line

/-- Fuel-indexed worker for `splitWsJs`: the fuel bounds the string length,
making the recursion structural (and hence kernel-reducible); the
zero-fuel arm is unreachable when the fuel dominates the length. -/
def splitWsF : Nat → Str → List Str
  | _, [] => [[]]
  | 0, _ :: _ => [[]]
  | fuel + 1, c :: rest =>
    if c.isWhitespace then
      [] :: splitWsF fuel (rest.dropWhile Char.isWhitespace)
    else
      match splitWsF fuel rest with
      | [] => [[c]]
      | w :: ws => (c :: w) :: ws

/-- `s.split(/\s+/)`: split on maximal whitespace runs; an empty string
yields `[""]`, and leading/trailing whitespace yields empty fragments, as
in JavaScript. -/
def splitWsJs (s : Str) : List Str := splitWsF s.length s

/-- `args.join(" ")`. -/
def joinSpace : List Str → Str
  | [] => []
  | [w] => w
  | w :: ws => w ++ ' ' :: joinSpace ws

/-- `haystack.includes(needle)` on strings. -/
def containsSub (h n : Str) : Bool :=
  match h with
  | [] => n.isEmpty
  | _ :: t => n.isPrefixOf h || containsSub t n

/-! ## Data model (`types/terminal.ts`) -/

/-- `ConnectionType = "local" | "telnet" | "ssh"`.  The `local` variant is
named `localShell` because `local` is a Lean keyword. -/
inductive ConnectionType
  | localShell
  | telnet
  | ssh
deriving DecidableEq, Repr

/-- `TerminalSession`.  The xterm.js `terminal` handle, `telnetInfo`,
`sshInfo` and `activeLogFiles` fields are UI resources not consulted by
any routing or registry logic and are omitted. -/
structure TerminalSession where
  id : Str
  name : Str
  connectionType : ConnectionType
  broadcastEnabled : Bool
  sessionId : Option Str
  groupId : Option Str
deriving DecidableEq, Repr

/-- `TabGroup`. -/
structure TabGroup where
  id : Str
  name : Str
  color : Str
deriving DecidableEq, Repr

/-- The state owned by `TerminalProvider` (`TerminalContext.tsx`). -/
structure ProviderState where
  sessions : List TerminalSession
  groups : List TabGroup
  activeSessionId : Option Str
  activeGroupId : Option Str
deriving DecidableEq, Repr

/-- A Tauri `invoke` that writes keystroke data to a backend session:
`write_to_pty` or `write_telnet`. -/
inductive BackendWrite
  | writeToPty (ptyId : Str) (data : Str)
  | writeTelnet (sessionId : Str) (data : Str)
deriving DecidableEq, Repr

/-- A Tauri `invoke` that tears down a backend session: `kill_pty` or
`disconnect_telnet`. -/
inductive BackendCall
  | killPty (ptyId : Str)
  | disconnectTelnet (sessionId : Str)
deriving DecidableEq, Repr

/-! ## Broadcast routing (`TerminalContext.tsx`, `broadcastKeystroke`) -/

/-- The body of the `forEach` loop of `broadcastKeystroke`: the write (if
any) issued for one session.  `groupId` is the optional filter parameter:
`none` models an omitted (`undefined`) argument, `some g` a passed
`string | null` value. -/
def keystrokeWrite (key : Str) (groupId : Option (Option Str))
    (session : TerminalSession) : Option BackendWrite :=
  match session.sessionId with
  | none => none
  | some sid =>
    if !session.broadcastEnabled || sid.isEmpty then none
    else if groupId.elim false (fun g => !(session.groupId == g)) then none
    else match session.connectionType with
      | .localShell => some (.writeToPty sid key)
      | .telnet => some (.writeTelnet sid key)
      | .ssh => none

/-- `broadcastKeystroke(key, groupId?)`: the list of backend writes issued
by one call, in session order. -/
def broadcastKeystroke (sessions : List TerminalSession) (key : Str)
    (groupId : Option (Option Str)) : List BackendWrite :=
  sessions.filterMap (keystrokeWrite key groupId)

/-- `BroadcastMode = "all" | "group" | "custom"` (`BroadcastInput.tsx`). -/
inductive BroadcastMode
  | all
  | group
  | custom
deriving DecidableEq, Repr

/-- The `broadcast` callback of `BroadcastInput.tsx`: dispatches to
`broadcastKeystroke` with the filter selected by the current mode. -/
def broadcast (mode : BroadcastMode) (activeGroupId customGroupId : Option Str)
    (sessions : List TerminalSession) (key : Str) : List BackendWrite :=
  if mode == .group && strTruthy activeGroupId then
    broadcastKeystroke sessions key (some activeGroupId)
  else if mode == .custom && strTruthy customGroupId then
    broadcastKeystroke sessions key (some customGroupId)
  else
    broadcastKeystroke sessions key none

/-- The group filter of the active broadcast-target mode, as the spec
describes it: All accepts every session, ActiveGroup/ExplicitGroup compare
the session's `groupId` with the respective group. -/
def modeMatches (mode : BroadcastMode) (activeGroupId customGroupId : Option Str)
    (s : TerminalSession) : Bool :=
  match mode with
  | .all => true
  | .group => s.groupId == activeGroupId
  | .custom => s.groupId == customGroupId

/-- A session actually reached by `broadcast`: broadcast-enabled, with a
connected backend, of a connection type the fan-out loop handles, and
passing the active mode's group filter. -/
def eligible (mode : BroadcastMode) (activeGroupId customGroupId : Option Str)
    (s : TerminalSession) : Bool :=
  s.broadcastEnabled && strTruthy s.sessionId && !(s.connectionType == .ssh)
    && modeMatches mode activeGroupId customGroupId s

/-- The single write issued to an eligible session. -/
def writeFor (key : Str) (s : TerminalSession) : BackendWrite :=
  match s.connectionType with
  | .telnet => .writeTelnet (s.sessionId.getD []) key
  | _ => .writeToPty (s.sessionId.getD []) key

/-! ## Session registry operations (`TerminalContext.tsx`)

`uuidv4()` results are modelled as explicit `id` arguments: the provider
draws a fresh opaque identifier from the environment. -/

/-- The predefined `GROUP_COLORS` palette. -/
def groupColors : List Str :=
  ["#58a6ff".data, "#3fb950".data, "#d29922".data, "#f85149".data,
   "#a371f7".data, "#79c0ff".data, "#56d364".data, "#e3b341".data]

/-- `addSession(groupId = null)`: create a local session; its group is
`groupId ?? activeGroupId`. -/
def addSession (st : ProviderState) (id : Str) (groupId : Option Str) :
    ProviderState :=
  let newSession : TerminalSession :=
    { id := id
      name := ("Terminal ".data ++ (toString (st.sessions.length + 1)).data)
      connectionType := .localShell
      broadcastEnabled := true
      sessionId := none
      groupId := groupId.orElse (fun _ => st.activeGroupId) }
  { st with sessions := st.sessions ++ [newSession], activeSessionId := some id }

/-- `addTelnetSession(host, port, name?)`: the display name is
`name || host:port` (JavaScript `||`, so an empty name falls back). -/
def addTelnetSession (st : ProviderState) (id : Str) (host : Str) (port : Nat)
    (name : Option Str) : ProviderState :=
  let fallback : Str := host ++ ':' :: (toString port).data
  let displayName :=
    match name with
    | some n => if n.isEmpty then fallback else n
    | none => fallback
  let newSession : TerminalSession :=
    { id := id
      name := displayName
      connectionType := .telnet
      broadcastEnabled := true
      sessionId := none
      groupId := st.activeGroupId }
  { st with sessions := st.sessions ++ [newSession], activeSessionId := some id }

/-- `removeSession(id)`: tear down the backend session (if one is
connected), drop the session, and fix up the active session.  Returns the
new state together with the backend teardown calls issued. -/
def removeSession (st : ProviderState) (id : Str) :
    ProviderState × List BackendCall :=
  let calls : List BackendCall :=
    match st.sessions.find? (fun s => s.id == id) with
    | some s =>
      match s.sessionId with
      | some sid =>
        if sid.isEmpty then []
        else match s.connectionType with
          | .localShell => [.killPty sid]
          | .telnet => [.disconnectTelnet sid]
          | .ssh => []
      | none => []
    | none => []
  let remaining := st.sessions.filter (fun s => !(s.id == id))
  let newActive : Option Str :=
    if st.activeSessionId == some id && !remaining.isEmpty then
      match st.sessions.findIdx? (fun s => s.id == id) with
      | some idx => (remaining[min idx (remaining.length - 1)]?).map (·.id)
      | none => none
    else if remaining.isEmpty then none
    else st.activeSessionId
  ({ st with sessions := remaining, activeSessionId := newActive }, calls)

/-- `toggleBroadcast(id)`. -/
def toggleBroadcast (st : ProviderState) (id : Str) : ProviderState :=
  { st with sessions := st.sessions.map (fun s =>
      if s.id == id then { s with broadcastEnabled := !s.broadcastEnabled } else s) }

/-- `updateSessionName(id, name)`. -/
def updateSessionName (st : ProviderState) (id : Str) (name : Str) :
    ProviderState :=
  { st with sessions := st.sessions.map (fun s =>
      if s.id == id then { s with name := name } else s) }

/-- `setSessionId(id, sessionId)`: associate a backend id. -/
def setSessionId (st : ProviderState) (id : Str) (sid : Str) : ProviderState :=
  { st with sessions := st.sessions.map (fun s =>
      if s.id == id then { s with sessionId := some sid } else s) }

/-- `addGroup(name)`. -/
def addGroup (st : ProviderState) (gid : Str) (name : Str) : ProviderState :=
  let colorIndex := st.groups.length % groupColors.length
  let newGroup : TabGroup := { id := gid, name := name, color := groupColors.getD colorIndex [] }
  { st with groups := st.groups ++ [newGroup], activeGroupId := some gid }

/-- `removeGroup(id)`: drop the group, set `groupId = null` on all its
member sessions, and clear the active group if it was the removed one. -/
def removeGroup (st : ProviderState) (id : Str) : ProviderState :=
  { st with
    groups := st.groups.filter (fun g => !(g.id == id))
    sessions := st.sessions.map (fun s =>
      if s.groupId == some id then { s with groupId := none } else s)
    activeGroupId := if st.activeGroupId == some id then none else st.activeGroupId }

/-- `renameGroup(id, name)`. -/
def renameGroup (st : ProviderState) (gid : Str) (name : Str) : ProviderState :=
  { st with groups := st.groups.map (fun g =>
      if g.id == gid then { g with name := name } else g) }

/-- `setActiveGroup(id)`: set the viewed group and make sure the active
session belongs to it (else jump to the first session of the group). -/
def setActiveGroup (st : ProviderState) (id : Option Str) : ProviderState :=
  match id with
  | none => { st with activeGroupId := none }
  | some gid =>
    let activeInGroup :=
      match st.sessions.find? (fun s => st.activeSessionId == some s.id) with
      | some s => s.groupId == some gid
      | none => false
    let newActive :=
      if activeInGroup then st.activeSessionId
      else
        match st.sessions.find? (fun s => s.groupId == some gid) with
        | some s => some s.id
        | none => st.activeSessionId
    { st with activeGroupId := some gid, activeSessionId := newActive }

/-- `moveToGroup(sessionId, groupId)`. -/
def moveToGroup (st : ProviderState) (sessionId : Str) (groupId : Option Str) :
    ProviderState :=
  { st with sessions := st.sessions.map (fun s =>
      if s.id == sessionId then { s with groupId := groupId } else s) }

/-! ## Glob patterns (`checkVimCommand`, `:m`)

The source builds `new RegExp('^' + pattern.replace(specials, escape)
.replace('*', '.*').replace('?', '.') + '$', 'i')` and tests it against
session names.  Every pattern character other than `*` and `?` therefore
matches literally (regex specials are escaped first); `*` becomes `.*`
and `?` becomes `.`.  The JavaScript `.` does not match line
terminators. -/

/-- The four line-terminator characters that JavaScript `.` refuses. -/
def isLineTerminator (c : Char) : Bool :=
  c == '\n' || c == '\r' || c == '\u2028' || c == '\u2029'

/-- Anchored, case-insensitive match of a wildcard pattern against a name,
the semantics of the regex the `:m` command compiles: `*` stands for `.*`
(a run of non-line-terminator characters), `?` for `.` (one such
character), every other pattern character is matched literally after
escaping, and the whole regex carries the `i` flag. -/
def globMatchF : Nat → Str → Str → Bool
  | _, [], [] => true
  | _, [], _ :: _ => false
  | 0, _ :: _, _ => false
  | fuel + 1, c :: p, s =>
    if c = '*' then
      globMatchF fuel p s ||
        (match s with
         | [] => false
         | x :: s' => !isLineTerminator x && globMatchF fuel (c :: p) s')
    else
      match s with
      | [] => false
      | x :: s' =>
        (if c = '?' then !isLineTerminator x else (c.toLower == x.toLower))
          && globMatchF fuel p s'

/-- The anchored glob match; `p.length + s.length` fuel suffices because
every recursive step strictly shrinks that sum. -/
def globMatch (p s : Str) : Bool := globMatchF (p.length + s.length) p s

/-! ## Vim-style command input (`BroadcastInput.tsx`) -/

/-- The component state of `BroadcastInput` (mode, explicit group, current
line, history).  The purely visual `outOfSync` flag is omitted. -/
structure InputState where
  broadcastMode : BroadcastMode
  customGroupId : Option Str
  currentLine : Str
  history : List Str
deriving DecidableEq, Repr

/-- Clear the input line (`setCurrentLine("")`). -/
def clearLine (inp : InputState) : InputState := { inp with currentLine := [] }

/-- Resolution of `:g <name>`: exact case-insensitive group-name match. -/
def resolveExactGroup (groups : List TabGroup) (name : Str) : Option TabGroup :=
  groups.find? (fun g => lowerStr g.name == lowerStr name)

/-- Resolution of `:m`/`:s` group fragments: first group whose lower-cased
name contains the lower-cased fragment. -/
def resolveSubGroup (groups : List TabGroup) (fragment : Str) : Option TabGroup :=
  groups.find? (fun g => containsSub (lowerStr g.name) (lowerStr fragment))

/-- `checkVimCommand(line)`: recognize and execute a `:`-command.  Returns
the handled flag together with the updated provider and input state; every
unrecognized line (including a `:g` with an unresolvable group, `:l`
without a viewed group, and `:m` whose pattern matches no session) leaves
both states unchanged.  The JavaScript function dispatches on
`line.trim().toLowerCase()` but extracts arguments from the raw line after
its first space character. -/
def checkVimCommand (p : ProviderState) (inp : InputState) (line : Str) :
    Bool × ProviderState × InputState :=
  let trimmed := lowerStr (trimStr line)
  if (trimmed == (":l").data || trimmed == (":local").data)
      && strTruthy p.activeGroupId then
    (true, p, clearLine { inp with broadcastMode := .group })
  else if trimmed == (":a").data || trimmed == (":all").data then
    (true, p, clearLine { inp with broadcastMode := .all, customGroupId := none })
  else if startsWithStr trimmed (":g ").data || startsWithStr trimmed (":group ").data then
    let groupName := trimStr (afterFirstSpace line)
    match resolveExactGroup p.groups groupName with
    | some g =>
      (true, p, clearLine { inp with broadcastMode := .custom, customGroupId := some g.id })
    | none => (false, p, inp)
  else if startsWithStr trimmed (":m ").data || startsWithStr trimmed (":move ").data then
    let args := splitWsJs (trimStr (afterFirstSpace line))
    let terminalPattern := args.headD []
    let groupName := joinSpace args.tail
    let matchingSessions := p.sessions.filter (fun s => globMatch terminalPattern s.name)
    if !matchingSessions.isEmpty then
      if !groupName.isEmpty then
        match resolveSubGroup p.groups groupName with
        | some g =>
          (true,
           matchingSessions.foldl (fun acc s => moveToGroup acc s.id (some g.id)) p,
           clearLine inp)
        | none => (false, p, inp)
      else
        (true,
         matchingSessions.foldl (fun acc s => moveToGroup acc s.id none) p,
         clearLine inp)
    else (false, p, inp)
  else if startsWithStr trimmed (":s ").data || startsWithStr trimmed (":switch ").data then
    let groupName := trimStr (afterFirstSpace line)
    if lowerStr groupName == ("all").data then
      (true, setActiveGroup p none, clearLine inp)
    else
      match resolveSubGroup p.groups groupName with
      | some g => (true, setActiveGroup p (some g.id), clearLine inp)
      | none => (false, p, inp)
  else if trimmed == (":?").data || trimmed == (":help").data then
    (true, p, clearLine inp)
  else
    (false, p, inp)

/-- The `targetSessions` memo: the sessions the current mode would
broadcast to (used only for `enabledCount`). -/
def targetSessions (p : ProviderState) (inp : InputState) : List TerminalSession :=
  let filtered := p.sessions.filter (fun s => s.broadcastEnabled)
  match inp.broadcastMode with
  | .all => filtered
  | .group =>
    if strTruthy p.activeGroupId then
      filtered.filter (fun s => s.groupId == p.activeGroupId)
    else filtered
  | .custom =>
    if strTruthy inp.customGroupId then
      filtered.filter (fun s => s.groupId == inp.customGroupId)
    else filtered

/-- `enabledCount`. -/
def enabledCount (p : ProviderState) (inp : InputState) : Nat :=
  (targetSessions p inp).length

/-- The Enter branch of `handleKeyDown` after the vim-command check did not
consume the event: bail out when no session is enabled, otherwise
broadcast a carriage return, record the line in the history, and clear
the line. -/
def enterFallthrough (p : ProviderState) (inp : InputState) :
    ProviderState × InputState × List BackendWrite :=
  if enabledCount p inp == 0 then (p, inp, [])
  else
    let writes :=
      broadcast inp.broadcastMode p.activeGroupId inp.customGroupId p.sessions ("\r").data
    let hist :=
      if !(trimStr inp.currentLine).isEmpty then
        if inp.history.getLast? == some inp.currentLine then inp.history
        else inp.history ++ [inp.currentLine]
      else inp.history
    (p, { inp with currentLine := [], history := hist }, writes)

/-- `handleKeyDown` on the Enter key: try the vim-command path for a
`:`-prefixed line; when it does not handle the line, fall through to the
ordinary Enter behaviour. -/
def handleEnter (p : ProviderState) (inp : InputState) :
    ProviderState × InputState × List BackendWrite :=
  if startsWithStr inp.currentLine (":").data then
    match checkVimCommand p inp inp.currentLine with
    | (true, p', inp') => (p', inp', [])
    | (false, _, _) => enterFallthrough p inp
  else enterFallthrough p inp

/-! ## Public operation sequences (for the groupId invariant) -/

/-- One public operation of the provider / command interface.  Fresh
`uuidv4` identifiers are carried by the operation; a command execution
carries the transient input-component state it runs in. -/
inductive Op
  | opAddSession (id : Str) (groupId : Option Str)
  | opAddTelnet (id : Str) (host : Str) (port : Nat) (name : Option Str)
  | opRemoveSession (id : Str)
  | opToggleBroadcast (id : Str)
  | opRenameSession (id : Str) (name : Str)
  | opSetSessionId (id : Str) (sid : Str)
  | opAddGroup (gid : Str) (name : Str)
  | opRemoveGroup (gid : Str)
  | opRenameGroup (gid : Str) (name : Str)
  | opSetActiveGroup (gid : Option Str)
  | opMoveToGroup (sid : Str) (gid : Option Str)
  | opCommand (inp : InputState)
deriving DecidableEq, Repr

/-- The provider-state transition of one public operation. -/
def step (st : ProviderState) : Op → ProviderState
  | .opAddSession id groupId => addSession st id groupId
  | .opAddTelnet id host port name => addTelnetSession st id host port name
  | .opRemoveSession id => (removeSession st id).1
  | .opToggleBroadcast id => toggleBroadcast st id
  | .opRenameSession id name => updateSessionName st id name
  | .opSetSessionId id sid => setSessionId st id sid
  | .opAddGroup gid name => addGroup st gid name
  | .opRemoveGroup gid => removeGroup st gid
  | .opRenameGroup gid name => renameGroup st gid name
  | .opSetActiveGroup gid => setActiveGroup st gid
  | .opMoveToGroup sid gid => moveToGroup st sid gid
  | .opCommand inp => (handleEnter st inp).1

/-- Run a sequence of public operations. -/
def runOps (st : ProviderState) : List Op → ProviderState
  | [] => st
  | op :: ops => runOps (step st op) ops

/-- The empty initial provider state. -/
def initialState : ProviderState :=
  { sessions := [], groups := [], activeSessionId := none, activeGroupId := none }

/-- Whether a group id exists in the current group list. -/
def groupExists (st : ProviderState) (g : Str) : Bool :=
  st.groups.any (fun tg => tg.id == g)

/-- The data-model invariant of §3: a session's `groupId`, if set,
references an existing group.  It is strengthened with the analogous
property of `activeGroupId`, which `addSession`/`addTelnetSession` copy
into new sessions. -/
def Inv (st : ProviderState) : Prop :=
  (∀ s ∈ st.sessions, ∀ g, s.groupId = some g → groupExists st g = true) ∧
  (∀ g, st.activeGroupId = some g → groupExists st g = true)

/-- Well-formedness of an operation's arguments: every group id passed
from outside names an existing group (as every caller in the repository
does, passing ids obtained from the group list). -/
def WfOp (st : ProviderState) : Op → Prop
  | .opAddSession _ groupId => ∀ g, groupId = some g → groupExists st g = true
  | .opSetActiveGroup gid => ∀ g, gid = some g → groupExists st g = true
  | .opMoveToGroup _ gid => ∀ g, gid = some g → groupExists st g = true
  | _ => True

/-- Well-formedness of a run, each operation judged in the state it
executes in. -/
def WfRun (st : ProviderState) : List Op → Prop
  | [] => True
  | op :: ops => WfOp st op ∧ WfRun (step st op) ops

/-! ## Shared helper lemmas -/

theorem filterMap_guard {α β : Type} (p : α → Bool) (f : α → β) (l : List α) :
    l.filterMap (fun a => if p a then some (f a) else none) = (l.filter p).map f := by
  induction l with
  | nil => rfl
  | cons a l ih =>
    by_cases h : p a <;> simp [List.filterMap_cons, List.filter_cons, h, ih]

theorem keystrokeWrite_eq (key : Str) (gf : Option (Option Str))
    (s : TerminalSession) :
    keystrokeWrite key gf s =
      if s.broadcastEnabled && strTruthy s.sessionId && !(s.connectionType == .ssh)
          && gf.elim true (fun g => s.groupId == g) then some (writeFor key s)
      else none := by
  rcases s with ⟨id, name, ct, be, sid, gid⟩
  cases sid with
  | none => simp [keystrokeWrite, strTruthy]
  | some sid =>
    cases gf with
    | none =>
      cases ct <;> cases be <;> by_cases he : sid.isEmpty <;>
        simp [keystrokeWrite, strTruthy, writeFor, he, Option.elim]
    | some g =>
      cases ct <;> cases be <;> by_cases he : sid.isEmpty <;>
        by_cases hg : gid == g <;>
          simp [keystrokeWrite, strTruthy, writeFor, he, hg, Option.elim]

theorem broadcastKeystroke_eq (sessions : List TerminalSession) (key : Str)
    (gf : Option (Option Str)) :
    broadcastKeystroke sessions key gf =
      (sessions.filter (fun s =>
          s.broadcastEnabled && strTruthy s.sessionId && !(s.connectionType == .ssh)
            && gf.elim true (fun g => s.groupId == g))).map (writeFor key) := by
  unfold broadcastKeystroke
  rw [show keystrokeWrite key gf = fun s =>
        if s.broadcastEnabled && strTruthy s.sessionId && !(s.connectionType == .ssh)
            && gf.elim true (fun g => s.groupId == g) then some (writeFor key s)
        else none from funext (keystrokeWrite_eq key gf)]
  exact filterMap_guard _ _ _

/-! ## Claim C1 -/

/-- Claim C1 (amended): a single `broadcast(k)` issues exactly one write of
`k` — in session order — to each session that is broadcast-enabled, has a
connected backend (`sessionId` non-null and non-empty), has a connection
type the fan-out handles (local or telnet, not ssh), and matches the
active target mode's group filter; it issues zero writes to every other
session.  The mode's group id is assumed set for the ActiveGroup and
ExplicitGroup modes (otherwise the fan-out falls back to the All
filter). -/
theorem broadcast_one_write_per_eligible
    (mode : BroadcastMode) (ag cg : Option Str)
    (sessions : List TerminalSession) (key : Str)
    (hg : mode = .group → strTruthy ag = true)
    (hc : mode = .custom → strTruthy cg = true) :
    broadcast mode ag cg sessions key =
      (sessions.filter (eligible mode ag cg)).map (writeFor key) := by
  cases mode with
  | all =>
    simp only [broadcast, broadcastKeystroke_eq]
    refine congrArg (List.map (writeFor key)) (List.filter_congr fun s _ => ?_)
    simp [eligible, modeMatches, Option.elim]
  | group =>
    simp only [broadcast, broadcastKeystroke_eq, hg rfl]
    refine congrArg (List.map (writeFor key)) (List.filter_congr fun s _ => ?_)
    simp [eligible, modeMatches, Option.elim]
  | custom =>
    simp only [broadcast, broadcastKeystroke_eq, hc rfl]
    refine congrArg (List.map (writeFor key)) (List.filter_congr fun s _ => ?_)
    simp [eligible, modeMatches, Option.elim]

/-- A connected, broadcast-enabled, ungrouped local session. -/
def c1ConnectedSession : TerminalSession :=
  { id := ("s1").data, name := ("T1").data, connectionType := .localShell,
    broadcastEnabled := true, sessionId := some ("p1").data, groupId := none }

/-- Witness for C1: at a concrete session list in All mode the theorem
instantiates and evaluates to the expected single write. -/
theorem broadcast_one_write_per_eligible_witness :
    broadcast .all none none [c1ConnectedSession] ("x").data =
      [BackendWrite.writeToPty ("p1").data ("x").data] := by
  rw [broadcast_one_write_per_eligible .all none none [c1ConnectedSession]
        ("x").data (by decide) (by decide)]
  decide

/-- A broadcast-enabled session that has no connected backend yet. -/
def c1DisconnectedSession : TerminalSession :=
  { id := ("s1").data, name := ("T1").data, connectionType := .localShell,
    broadcastEnabled := true, sessionId := none, groupId := none }

/-- Claim C1 counterexample: in All mode a broadcast-enabled session that
matches the mode filter but has a null backend `sessionId` receives zero
writes, not exactly one, so the claim as stated fails. -/
theorem c1_counterexample_disconnected_session :
    c1DisconnectedSession.broadcastEnabled = true ∧
    modeMatches .all none none c1DisconnectedSession = true ∧
    broadcast .all none none [c1DisconnectedSession] ("k").data = [] := by
  decide

/-! ## Claim C10 -/

/-- Claim C10: `broadcastKeystroke` never writes to a session whose backend
`sessionId` is null, and a call with an explicit `null` group filter
(`broadcastKeystroke(k, null)`) writes only to broadcast-enabled connected
non-ssh sessions whose `groupId` is null — the ungrouped ones — rather
than to all sessions. -/
theorem broadcastKeystroke_null_filter_ungrouped
    (sessions : List TerminalSession) (key : Str) :
    (∀ gf s, s.sessionId = none → keystrokeWrite key gf s = none) ∧
    broadcastKeystroke sessions key (some none) =
      (sessions.filter (fun s =>
          s.broadcastEnabled && strTruthy s.sessionId && !(s.connectionType == .ssh)
            && s.groupId == none)).map (writeFor key) := by
  refine ⟨fun gf s h => by simp [keystrokeWrite, h], ?_⟩
  rw [broadcastKeystroke_eq]
  simp [Option.elim]

/-- Concrete sessions for the C10 witness: an ungrouped connected session,
a grouped connected session and a disconnected session. -/
def c10Sessions : List TerminalSession :=
  [{ id := ("s1").data, name := ("U").data, connectionType := .localShell,
     broadcastEnabled := true, sessionId := some ("p1").data, groupId := none },
   { id := ("s2").data, name := ("G").data, connectionType := .telnet,
     broadcastEnabled := true, sessionId := some ("t2").data,
     groupId := some ("g1").data },
   { id := ("s3").data, name := ("D").data, connectionType := .telnet,
     broadcastEnabled := true, sessionId := none, groupId := none }]

/-- Witness for C10: with a null group filter only the ungrouped connected
session is written to; the grouped and the disconnected sessions get
nothing. -/
theorem broadcastKeystroke_null_filter_ungrouped_witness :
    keystrokeWrite ("k").data (some none) (c10Sessions.getD 2 c1ConnectedSession) = none ∧
    broadcastKeystroke c10Sessions ("k").data (some none) =
      [BackendWrite.writeToPty ("p1").data ("k").data] := by
  have h := broadcastKeystroke_null_filter_ungrouped c10Sessions ("k").data
  refine ⟨h.1 (some none) _ (by decide), ?_⟩
  rw [h.2]
  decide

/-! ## Claim C6 -/

/-- Claim C6: moving a session into group `g` and then removing `g` leaves
every session present; the moved session and every other member of `g` end
up with `groupId = null`, all other sessions keep their group.  In
particular the moved session, if present, survives ungrouped — orphans are
never deleted. -/
theorem moveToGroup_removeGroup_round_trip
    (st : ProviderState) (id g : Str) :
    (removeGroup (moveToGroup st id (some g)) g).sessions =
      st.sessions.map (fun s =>
        if s.id == id || s.groupId == some g then { s with groupId := none } else s) ∧
    ∀ s ∈ st.sessions, s.id = id →
      ∃ s' ∈ (removeGroup (moveToGroup st id (some g)) g).sessions,
        s'.id = id ∧ s'.groupId = none := by
  have hmap : (removeGroup (moveToGroup st id (some g)) g).sessions =
      st.sessions.map (fun s =>
        if s.id == id || s.groupId == some g then { s with groupId := none } else s) := by
    simp only [removeGroup, moveToGroup, List.map_map]
    refine List.map_congr_left fun s _ => ?_
    by_cases h1 : s.id == id
    · simp [Function.comp, h1]
    · by_cases h2 : s.groupId == some g <;> simp [Function.comp, h1, h2]
  refine ⟨hmap, fun s hs hid => ?_⟩
  refine ⟨{ s with groupId := none }, ?_, by simpa using hid, rfl⟩
  rw [hmap]
  have : (if s.id == id || s.groupId == some g then { s with groupId := none } else s)
      = { s with groupId := none } := by
    simp [hid]
  exact this ▸ List.mem_map_of_mem _ hs

/-- A concrete state for the C6 witness: two sessions in group `g`, one
outside, plus the group itself. -/
def c6State : ProviderState :=
  { sessions :=
      [{ id := ("s1").data, name := ("R-1").data, connectionType := .localShell,
         broadcastEnabled := true, sessionId := none, groupId := none },
       { id := ("s2").data, name := ("R-2").data, connectionType := .telnet,
         broadcastEnabled := true, sessionId := none, groupId := some ("g").data },
       { id := ("s3").data, name := ("SW-1").data, connectionType := .telnet,
         broadcastEnabled := true, sessionId := none, groupId := some ("h").data }]
    groups := [{ id := ("g").data, name := ("Lab").data, color := ("#58a6ff").data },
               { id := ("h").data, name := ("Other").data, color := ("#3fb950").data }]
    activeSessionId := none
    activeGroupId := none }

/-- Witness for C6: after `moveToGroup(s1, g); removeGroup(g)` the moved
session `s1` and the old member `s2` are ungrouped, `s3` keeps its group,
and nobody was deleted. -/
theorem moveToGroup_removeGroup_round_trip_witness :
    (removeGroup (moveToGroup c6State ("s1").data (some ("g").data)) ("g").data).sessions.map
        (fun s => (s.id, s.groupId)) =
      [(("s1").data, none), (("s2").data, none), (("s3").data, some ("h").data)] := by
  rw [(moveToGroup_removeGroup_round_trip c6State ("s1").data ("g").data).1]
  decide

/-! ## Claim C8 -/

/-- After `removeSession st id`, no remaining session carries `id`. -/
theorem removeSession_id_gone (st : ProviderState) (id : Str) :
    ∀ s ∈ (removeSession st id).1.sessions, (s.id == id) = false := by
  intro s hs
  have := List.of_mem_filter hs
  simpa using this

/-- After `removeSession st id`, the active session id is never `id`. -/
theorem removeSession_active_ne (st : ProviderState) (id : Str) :
    ((removeSession st id).1.activeSessionId == some id) = false := by
  unfold removeSession
  simp only
  split
  · split
    · rename_i idx hidx
      cases hget : (List.filter (fun s => !(s.id == id)) st.sessions)[min idx
          ((List.filter (fun s => !(s.id == id)) st.sessions).length - 1)]? with
      | none => simp [hget]
      | some s =>
        have hmem : s ∈ List.filter (fun s => !(s.id == id)) st.sessions :=
          List.getElem?_mem hget
        have hne := List.of_mem_filter hmem
        simp only [hget, Option.map_some']
        simpa using hne
    · simp
  · split
    · simp
    · rename_i hcond hne
      have hb : (!(List.filter (fun s => !(s.id == id)) st.sessions).isEmpty) = true := by
        simpa using hne
      by_cases ha : (st.activeSessionId == some id) = true
      · exact absurd (by simp [ha, hb]) hcond
      · simpa using ha

/-- When removal empties the session list, the active session is cleared. -/
theorem removeSession_empty_active (st : ProviderState) (id : Str)
    (h : st.sessions.filter (fun s => !(s.id == id)) = []) :
    (removeSession st id).1.activeSessionId = none := by
  unfold removeSession
  simp [h]

/-- On a state that does not contain `id` (and whose active pointer is
consistent), `removeSession id` is a complete no-op with no backend
call. -/
theorem removeSession_of_absent (st : ProviderState) (id : Str)
    (habs : ∀ s ∈ st.sessions, (s.id == id) = false)
    (hact : (st.activeSessionId == some id) = false)
    (hemp : st.sessions = [] → st.activeSessionId = none) :
    removeSession st id = (st, []) := by
  rcases st with ⟨sessions, groups, active, ag⟩
  simp only at habs hact hemp
  have hfind : sessions.find? (fun s => s.id == id) = none :=
    List.find?_eq_none.mpr fun s hs => by simp [habs s hs]
  have hfilter : sessions.filter (fun s => !(s.id == id)) = sessions :=
    List.filter_eq_self.mpr fun s hs => by simp [habs s hs]
  unfold removeSession
  simp only [hfind, hfilter, hact, Bool.false_and]
  by_cases hemp2 : sessions.isEmpty
  · have h0 : sessions = [] := by
      cases sessions with
      | nil => rfl
      | cons a l => simp at hemp2
    simp [h0, hemp h0]
  · simp [hemp2]

/-- Claim C8: session removal is idempotent.  Removing an id that is not
present leaves the session list unchanged and issues no backend teardown;
a second removal of the same id is a complete no-op (state unchanged, no
backend call); and any single removal tears the backend down at most
once. -/
theorem removeSession_idempotent (st : ProviderState) (id : Str) :
    ((∀ s ∈ st.sessions, (s.id == id) = false) →
        (removeSession st id).1.sessions = st.sessions ∧
        (removeSession st id).2 = []) ∧
    removeSession (removeSession st id).1 id = ((removeSession st id).1, []) ∧
    (removeSession st id).2.length ≤ 1 := by
  refine ⟨fun habs => ?_, ?_, ?_⟩
  · have hfind : st.sessions.find? (fun s => s.id == id) = none :=
      List.find?_eq_none.mpr fun s hs => by simp [habs s hs]
    constructor
    · simp only [removeSession]
      exact List.filter_eq_self.mpr fun s hs => by simp [habs s hs]
    · simp only [removeSession, hfind]
  · exact removeSession_of_absent _ id (removeSession_id_gone st id)
      (removeSession_active_ne st id)
      (fun h => removeSession_empty_active st id h)
  · unfold removeSession
    simp only
    repeat' split
    all_goals simp

/-- Concrete state for the C8 witness. -/
def c8State : ProviderState :=
  { sessions :=
      [{ id := ("s1").data, name := ("T1").data, connectionType := .localShell,
         broadcastEnabled := true, sessionId := some ("p1").data, groupId := none }]
    groups := []
    activeSessionId := some ("s1").data
    activeGroupId := none }

/-- Witness for C8: removing an absent id from a concrete state is a no-op
with no backend call, and the second removal of an existing id is a full
no-op after the first. -/
theorem removeSession_idempotent_witness :
    ((removeSession c8State ("zz").data).1.sessions = c8State.sessions ∧
      (removeSession c8State ("zz").data).2 = []) ∧
    removeSession (removeSession c8State ("s1").data).1 ("s1").data =
      ((removeSession c8State ("s1").data).1, []) ∧
    (removeSession c8State ("s1").data).2.length ≤ 1 :=
  ⟨(removeSession_idempotent c8State ("zz").data).1 (by decide),
   (removeSession_idempotent c8State ("s1").data).2.1,
   (removeSession_idempotent c8State ("s1").data).2.2⟩

/-! ## Claim C9 -/

theorem inv_moveToGroup {st : ProviderState} (hInv : Inv st) (sid : Str)
    (gid : Option Str) (hg : ∀ g, gid = some g → groupExists st g = true) :
    Inv (moveToGroup st sid gid) := by
  obtain ⟨h1, h2⟩ := hInv
  refine ⟨fun s hs g hgid => ?_, fun g hgid => h2 g hgid⟩
  simp only [moveToGroup, List.mem_map] at hs
  obtain ⟨t, ht, rfl⟩ := hs
  by_cases hid : (t.id == sid) = true
  · simp only [hid, if_true] at hgid
    exact hg g hgid
  · simp only [hid] at hgid
    simp only [Bool.false_eq_true, if_false] at hgid
    exact h1 t ht g hgid

theorem inv_setActiveGroup {st : ProviderState} (hInv : Inv st)
    (gid : Option Str) (hg : ∀ g, gid = some g → groupExists st g = true) :
    Inv (setActiveGroup st gid) := by
  obtain ⟨h1, h2⟩ := hInv
  cases gid with
  | none =>
    refine ⟨fun s hs g hgid => h1 s hs g hgid, fun g hgid => ?_⟩
    simp [setActiveGroup] at hgid
  | some gid =>
    refine ⟨fun s hs g hgid => h1 s hs g hgid, fun g hgid => ?_⟩
    simp only [setActiveGroup] at hgid
    cases hgid
    exact hg gid rfl

theorem inv_foldl_moveToGroup {st : ProviderState} (hInv : Inv st)
    (l : List TerminalSession) (gid : Option Str)
    (hg : ∀ g, gid = some g → groupExists st g = true) :
    Inv (l.foldl (fun acc s => moveToGroup acc s.id gid) st) := by
  induction l generalizing st with
  | nil => exact hInv
  | cons a l ih =>
    simp only [List.foldl_cons]
    exact ih (inv_moveToGroup hInv a.id gid hg) (fun g h => hg g h)

theorem mem_of_resolveSubGroup {groups : List TabGroup} {frag : Str} {g : TabGroup}
    (h : resolveSubGroup groups frag = some g) : g ∈ groups :=
  List.mem_of_find?_eq_some h

theorem inv_checkVimCommand {st : ProviderState} (inp : InputState) (line : Str)
    (hInv : Inv st) : Inv (checkVimCommand st inp line).2.1 := by
  unfold checkVimCommand
  simp only
  split
  · exact hInv
  · split
    · exact hInv
    · split
      · split
        · exact hInv
        · exact hInv
      · split
        · split
          · split
            · split
              · rename_i g hfind
                apply inv_foldl_moveToGroup hInv
                intro g' hg'
                cases hg'
                simp only [groupExists, List.any_eq_true]
                exact ⟨g, mem_of_resolveSubGroup hfind, by simp⟩
              · exact hInv
            · apply inv_foldl_moveToGroup hInv
              intro g' hg'
              cases hg'
          · exact hInv
        · split
          · split
            · exact inv_setActiveGroup hInv none fun g h => by cases h
            · split
              · rename_i g hfind
                apply inv_setActiveGroup hInv (some g.id)
                intro g' hg'
                cases hg'
                simp only [groupExists, List.any_eq_true]
                exact ⟨g, mem_of_resolveSubGroup hfind, by simp⟩
              · exact hInv
          · split
            · exact hInv
            · exact hInv

theorem inv_handleEnter {st : ProviderState} (inp : InputState)
    (hInv : Inv st) : Inv (handleEnter st inp).1 := by
  have hfall : Inv (enterFallthrough st inp).1 := by
    unfold enterFallthrough
    split
    · exact hInv
    · exact hInv
  have hcv := inv_checkVimCommand inp inp.currentLine hInv
  unfold handleEnter
  split
  · split
    · rename_i p' inp' heq
      rw [heq] at hcv
      exact hcv
    · exact hfall
  · exact hfall

theorem inv_step (st : ProviderState) (op : Op) (hInv : Inv st)
    (hwf : WfOp st op) : Inv (step st op) := by
  obtain ⟨h1, h2⟩ := hInv
  cases op with
  | opAddSession id groupId =>
    refine ⟨fun s hs g hgid => ?_, fun g hgid => h2 g hgid⟩
    simp only [step, addSession, List.mem_append, List.mem_singleton] at hs
    rcases hs with hs | rfl
    · exact h1 s hs g hgid
    · simp only at hgid
      cases hgroup : groupId with
      | some g' =>
        rw [hgroup] at hgid
        simp only [Option.orElse] at hgid
        cases hgid
        exact hwf g (by rw [hgroup])
      | none =>
        rw [hgroup] at hgid
        simp only [Option.orElse] at hgid
        exact h2 g hgid
  | opAddTelnet id host port name =>
    refine ⟨fun s hs g hgid => ?_, fun g hgid => h2 g hgid⟩
    simp only [step, addTelnetSession, List.mem_append, List.mem_singleton] at hs
    rcases hs with hs | rfl
    · exact h1 s hs g hgid
    · exact h2 g hgid
  | opRemoveSession id =>
    refine ⟨fun s hs g hgid => ?_, fun g hgid => h2 g hgid⟩
    simp only [step, removeSession, List.mem_filter] at hs
    exact h1 s hs.1 g hgid
  | opToggleBroadcast id =>
    refine ⟨fun s hs g hgid => ?_, fun g hgid => h2 g hgid⟩
    simp only [step, toggleBroadcast, List.mem_map] at hs
    obtain ⟨t, ht, rfl⟩ := hs
    by_cases hid : (t.id == id) = true <;> simp only [hid] at hgid <;>
      simp only [Bool.false_eq_true, if_false, if_true] at hgid <;>
      exact h1 t ht g hgid
  | opRenameSession id name =>
    refine ⟨fun s hs g hgid => ?_, fun g hgid => h2 g hgid⟩
    simp only [step, updateSessionName, List.mem_map] at hs
    obtain ⟨t, ht, rfl⟩ := hs
    by_cases hid : (t.id == id) = true <;> simp only [hid] at hgid <;>
      simp only [Bool.false_eq_true, if_false, if_true] at hgid <;>
      exact h1 t ht g hgid
  | opSetSessionId id sid =>
    refine ⟨fun s hs g hgid => ?_, fun g hgid => h2 g hgid⟩
    simp only [step, setSessionId, List.mem_map] at hs
    obtain ⟨t, ht, rfl⟩ := hs
    by_cases hid : (t.id == id) = true <;> simp only [hid] at hgid <;>
      simp only [Bool.false_eq_true, if_false, if_true] at hgid <;>
      exact h1 t ht g hgid
  | opAddGroup gid name =>
    have hmono : ∀ g, groupExists st g = true →
        groupExists (step st (.opAddGroup gid name)) g = true := by
      intro g hg
      simp only [groupExists, List.any_eq_true] at hg ⊢
      obtain ⟨tg, htg, heq⟩ := hg
      exact ⟨tg, by simp [step, addGroup, htg], heq⟩
    refine ⟨fun s hs g hgid => ?_, fun g hgid => ?_⟩
    · simp only [step, addGroup] at hs
      exact hmono g (h1 s hs g hgid)
    · simp only [step, addGroup] at hgid
      cases hgid
      simp [step, addGroup, groupExists]
  | opRemoveGroup gid =>
    have hsurv : ∀ g, ¬(g = gid) → groupExists st g = true →
        groupExists (step st (.opRemoveGroup gid)) g = true := by
      intro g hne hg
      simp only [groupExists, List.any_eq_true] at hg ⊢
      obtain ⟨tg, htg, heq⟩ := hg
      refine ⟨tg, ?_, heq⟩
      simp only [step, removeGroup, List.mem_filter]
      refine ⟨htg, ?_⟩
      have : tg.id = g := by simpa using heq
      simp [this, hne]
    refine ⟨fun s hs g hgid => ?_, fun g hgid => ?_⟩
    · simp only [step, removeGroup, List.mem_map] at hs
      obtain ⟨t, ht, rfl⟩ := hs
      by_cases hG : (t.groupId == some gid) = true
      · simp only [hG, if_true] at hgid
        cases hgid
      · simp only [hG, Bool.false_eq_true, if_false] at hgid
        refine hsurv g (fun h => ?_) (h1 t ht g hgid)
        subst h
        simp [hgid] at hG
    · simp only [step, removeGroup] at hgid
      by_cases hA : (st.activeGroupId == some gid) = true
      · simp only [hA, if_true] at hgid
        cases hgid
      · simp only [hA, Bool.false_eq_true, if_false] at hgid
        refine hsurv g (fun h => ?_) (h2 g hgid)
        subst h
        simp [hgid] at hA
  | opRenameGroup gid name =>
    have hmono : ∀ g, groupExists st g = true →
        groupExists (step st (.opRenameGroup gid name)) g = true := by
      intro g hg
      simp only [groupExists, List.any_eq_true] at hg ⊢
      obtain ⟨tg, htg, heq⟩ := hg
      refine ⟨if tg.id == gid then { tg with name := name } else tg, ?_, ?_⟩
      · simp only [step, renameGroup, List.mem_map]
        exact ⟨tg, htg, rfl⟩
      · by_cases h : (tg.id == gid) = true <;> simp [h, heq]
    exact ⟨fun s hs g hgid => hmono g (h1 s hs g hgid),
           fun g hgid => hmono g (h2 g hgid)⟩
  | opSetActiveGroup gid => exact inv_setActiveGroup ⟨h1, h2⟩ gid hwf
  | opMoveToGroup sid gid => exact inv_moveToGroup ⟨h1, h2⟩ sid gid hwf
  | opCommand inp => exact inv_handleEnter inp ⟨h1, h2⟩

theorem inv_runOps (st : ProviderState) (ops : List Op) (hInv : Inv st)
    (hwf : WfRun st ops) : Inv (runOps st ops) := by
  induction ops generalizing st with
  | nil => exact hInv
  | cons op ops ih => exact ih _ (inv_step st op hInv hwf.1) hwf.2

theorem inv_initialState : Inv initialState :=
  ⟨fun _s hs => (nomatch hs), fun _g h => (nomatch h)⟩

/-- Claim C9 (amended): over every sequence of public operations from the
initial state in which every externally supplied group id (the arguments
of `moveToGroup`, `setActiveGroup` and `addSession`, which every caller in
the repository draws from the current group list) names an existing group,
every session whose `groupId` is non-null references a group that
currently exists, and the viewed `activeGroupId` does too. -/
theorem groupId_references_existing_group (ops : List Op)
    (hwf : WfRun initialState ops) : Inv (runOps initialState ops) :=
  inv_runOps initialState ops inv_initialState hwf

/-- Witness for C9: a run that creates a group, adds a session into it and
ungroups it again satisfies the invariant. -/
theorem groupId_references_existing_group_witness :
    Inv (runOps initialState
      [.opAddGroup ("g1").data ("Lab").data,
       .opAddSession ("s1").data (some ("g1").data),
       .opMoveToGroup ("s1").data none]) := by
  apply groupId_references_existing_group
  refine ⟨trivial, ?_, ?_, trivial⟩
  · intro g h
    injection h with h
    subst h
    decide
  · intro g h
    cases h

/-- The orphaned session produced by the C9 counterexample run. -/
def c9GhostSession : TerminalSession :=
  { id := ("s1").data
    name := ("Terminal 1").data
    connectionType := .localShell
    broadcastEnabled := true
    sessionId := none
    groupId := some ("ghost").data }

/-- Claim C9 counterexample: the public `moveToGroup` accepts an arbitrary
group id, so the two-operation sequence `addSession; moveToGroup(s1,
"ghost")` leaves a session referencing a group that does not exist — the
claim quantified over all operation sequences fails. -/
theorem c9_counterexample_ghost_group :
    (runOps initialState [.opAddSession ("s1").data none,
        .opMoveToGroup ("s1").data (some ("ghost").data)]).groups = [] ∧
    ¬ Inv (runOps initialState [.opAddSession ("s1").data none,
        .opMoveToGroup ("s1").data (some ("ghost").data)]) := by
  refine ⟨by decide, fun h => ?_⟩
  have h1 := h.1 c9GhostSession (by decide) ("ghost").data rfl
  revert h1
  decide

/-! ## Claim C2 -/

/-- The data payload of a backend write. -/
def writeData : BackendWrite → Str
  | .writeToPty _ d => d
  | .writeTelnet _ d => d

theorem writeData_writeFor (key : Str) (s : TerminalSession) :
    writeData (writeFor key s) = key := by
  unfold writeFor writeData
  cases s.connectionType <;> rfl

theorem writeData_broadcastKeystroke (sessions : List TerminalSession) (key : Str)
    (gf : Option (Option Str)) :
    ∀ w ∈ broadcastKeystroke sessions key gf, writeData w = key := by
  intro w hw
  rw [broadcastKeystroke_eq] at hw
  obtain ⟨s, _, rfl⟩ := List.mem_map.mp hw
  exact writeData_writeFor key s

theorem writeData_broadcast (mode : BroadcastMode) (ag cg : Option Str)
    (sessions : List TerminalSession) (key : Str) :
    ∀ w ∈ broadcast mode ag cg sessions key, writeData w = key := by
  intro w hw
  unfold broadcast at hw
  split at hw
  · exact writeData_broadcastKeystroke _ _ _ w hw
  · split at hw
    · exact writeData_broadcastKeystroke _ _ _ w hw
    · exact writeData_broadcastKeystroke _ _ _ w hw

/-- Claim C2 (amended): submitting with Enter a `:`-prefixed line that no
command form recognizes (checkVimCommand returns false — including `:g`
with an unresolvable group, `:l` with no viewed group, and `:m` with a
pattern matching no session) performs no session or group mutation, keeps
the broadcast mode and explicit group unchanged, and writes none of the
line's characters — but it does fall through to the ordinary Enter
handler, which broadcasts a single carriage-return byte to the currently
targeted sessions whenever at least one is broadcast-enabled. -/
theorem unmatched_command_no_mutation
    (p : ProviderState) (inp : InputState)
    (hColon : startsWithStr inp.currentLine ((":").data) = true)
    (hUnmatched : (checkVimCommand p inp inp.currentLine).1 = false) :
    (handleEnter p inp).1 = p ∧
    (handleEnter p inp).2.1.broadcastMode = inp.broadcastMode ∧
    (handleEnter p inp).2.1.customGroupId = inp.customGroupId ∧
    (handleEnter p inp).2.2 =
      (if enabledCount p inp == 0 then []
       else broadcast inp.broadcastMode p.activeGroupId inp.customGroupId
         p.sessions ("\r").data) ∧
    ∀ w ∈ (handleEnter p inp).2.2, writeData w = ("\r").data := by
  have hfall : handleEnter p inp = enterFallthrough p inp := by
    unfold handleEnter
    rw [hColon]
    rcases hcheck : checkVimCommand p inp inp.currentLine with ⟨handled, a, b⟩
    rw [hcheck] at hUnmatched
    simp only at hUnmatched
    subst hUnmatched
    simp
  rw [hfall]
  unfold enterFallthrough
  by_cases hcnt : (enabledCount p inp == 0) = true
  · rw [if_pos hcnt, if_pos hcnt]
    exact ⟨rfl, rfl, rfl, rfl, fun w hw => (nomatch hw)⟩
  · rw [if_neg hcnt, if_neg hcnt]
    exact ⟨rfl, rfl, rfl, rfl, fun w hw => writeData_broadcast _ _ _ _ _ w hw⟩

/-- Concrete provider state for the C2 theorems: one broadcast-enabled
connected local session. -/
def c2Provider : ProviderState :=
  { sessions :=
      [{ id := ("s1").data, name := ("R-1").data, connectionType := .localShell,
         broadcastEnabled := true, sessionId := some ("p1").data, groupId := none }]
    groups := []
    activeSessionId := some ("s1").data
    activeGroupId := none }

/-- Concrete input state for the C2 counterexample. -/
def c2Input : InputState :=
  { broadcastMode := .all, customGroupId := none,
    currentLine := (":zzz").data, history := [] }

/-- Claim C2 counterexample: the unrecognized line `:zzz`, submitted with
Enter while one broadcast-enabled connected session exists, is not handled
by `checkVimCommand` and causes one carriage-return byte to be written to
that session — not zero bytes as the claim states. -/
theorem c2_counterexample_carriage_return :
    (checkVimCommand c2Provider c2Input ((":zzz").data)).1 = false ∧
    (handleEnter c2Provider c2Input).2.2 =
      [BackendWrite.writeToPty ("p1").data ("\r").data] := by
  decide

/-- Witness for C2 (amended): an unresolvable `:g nosuch` leaves the
provider state untouched and the fall-through writes are exactly the
carriage-return broadcast. -/
theorem unmatched_command_no_mutation_witness :
    (handleEnter c2Provider { c2Input with currentLine := (":g nosuch").data }).1
        = c2Provider ∧
    (handleEnter c2Provider { c2Input with currentLine := (":g nosuch").data }).2.2
        = [BackendWrite.writeToPty ("p1").data ("\r").data] := by
  have h := unmatched_command_no_mutation c2Provider
    { c2Input with currentLine := (":g nosuch").data } (by decide) (by decide)
  refine ⟨h.1, ?_⟩
  rw [h.2.2.2.1]
  decide

/-! ## Claim C7: character-level lemmas about ASCII case folding -/

theorem char_toNat_inj {a b : Char} (h : a.toNat = b.toNat) : a = b := by
  have hv : a.val = b.val := by
    unfold Char.toNat at h
    exact UInt32.toNat.inj h
  exact Char.eq_of_val_eq hv

theorem toNat_ofNat_valid {n : Nat} (h : n.isValidChar) : (Char.ofNat n).toNat = n := by
  simp [Char.ofNat, h, Char.ofNatAux, Char.toNat, UInt32.toNat, UInt32.ofNat']

theorem toLower_def (c : Char) :
    Char.toLower c =
      if c.toNat ≥ 65 ∧ c.toNat ≤ 90 then Char.ofNat (c.toNat + 32) else c := rfl

theorem toLower_toNat (c : Char) :
    (Char.toLower c).toNat =
      if c.toNat ≥ 65 ∧ c.toNat ≤ 90 then c.toNat + 32 else c.toNat := by
  rw [toLower_def]
  split
  · exact toNat_ofNat_valid (Or.inl (by omega))
  · rfl

theorem char_eq_iff_toNat {a b : Char} : a = b ↔ a.toNat = b.toNat :=
  ⟨fun h => h ▸ rfl, char_toNat_inj⟩

theorem isWhitespace_toNat (c : Char) :
    c.isWhitespace = true ↔
      (c.toNat = 32 ∨ c.toNat = 9 ∨ c.toNat = 13 ∨ c.toNat = 10) := by
  unfold Char.isWhitespace
  simp only [Bool.or_eq_true, decide_eq_true_eq, char_eq_iff_toNat,
    show (' ').toNat = 32 from rfl, show ('\t').toNat = 9 from rfl,
    show ('\x0d').toNat = 13 from rfl, show ('\n').toNat = 10 from rfl]
  tauto

theorem toLower_isWhitespace (c : Char) :
    (Char.toLower c).isWhitespace = c.isWhitespace := by
  by_cases hu : c.toNat ≥ 65 ∧ c.toNat ≤ 90
  · have ht : (Char.toLower c).toNat = c.toNat + 32 := by
      rw [toLower_toNat, if_pos hu]
    have h1 : (Char.toLower c).isWhitespace = false := by
      rw [Bool.eq_false_iff]
      intro hw
      rcases (isWhitespace_toNat _).mp hw with h | h | h | h <;> omega
    have h2 : c.isWhitespace = false := by
      rw [Bool.eq_false_iff]
      intro hw
      rcases (isWhitespace_toNat _).mp hw with h | h | h | h <;> omega
    rw [h1, h2]
  · rw [toLower_def, if_neg hu]

theorem toLower_eq_iff_nonletter {c d : Char}
    (hd1 : ¬(97 ≤ d.toNat ∧ d.toNat ≤ 122)) (hd2 : ¬(65 ≤ d.toNat ∧ d.toNat ≤ 90)) :
    Char.toLower c = d ↔ c = d := by
  by_cases hu : c.toNat ≥ 65 ∧ c.toNat ≤ 90
  · have ht : (Char.toLower c).toNat = c.toNat + 32 := by
      rw [toLower_toNat, if_pos hu]
    constructor
    · intro h
      subst h
      rw [ht] at hd1
      exact absurd ⟨by omega, by omega⟩ hd1
    · intro h
      subst h
      exact absurd hu hd2
  · have h : Char.toLower c = c := by rw [toLower_def, if_neg hu]
    rw [h]

theorem toLower_idem (c : Char) : Char.toLower (Char.toLower c) = Char.toLower c := by
  by_cases hu : c.toNat ≥ 65 ∧ c.toNat ≤ 90
  · have ht : (Char.toLower c).toNat = c.toNat + 32 := by
      rw [toLower_toNat, if_pos hu]
    rw [toLower_def (Char.toLower c), if_neg (by omega)]
  · have h : Char.toLower c = c := by rw [toLower_def, if_neg hu]
    rw [h, h]

theorem toLower_beq_space (c : Char) : (Char.toLower c == ' ') = (c == ' ') := by
  have hiff := toLower_eq_iff_nonletter (c := c) (d := ' ') (by decide) (by decide)
  by_cases h : c = ' '
  · subst h
    decide
  · have h2 : Char.toLower c ≠ ' ' := fun hh => h (hiff.mp hh)
    rw [beq_eq_false_iff_ne.mpr h2, beq_eq_false_iff_ne.mpr h]

/-! ## Claim C7: string-level commutation with lower-casing -/

theorem lowerStr_idem (s : Str) : lowerStr (lowerStr s) = lowerStr s := by
  unfold lowerStr
  rw [List.map_map]
  exact List.map_congr_left fun c _ => toLower_idem c

theorem lowerStr_isEmpty (s : Str) : (lowerStr s).isEmpty = s.isEmpty := by
  cases s <;> rfl

theorem trimStr_lowerStr (s : Str) : trimStr (lowerStr s) = lowerStr (trimStr s) := by
  unfold trimStr lowerStr
  have hws : (Char.isWhitespace ∘ Char.toLower) = Char.isWhitespace :=
    funext fun c => toLower_isWhitespace c
  rw [List.dropWhile_map, hws, ← List.map_reverse, List.dropWhile_map, hws,
    ← List.map_reverse]

theorem afterFirstSpace_lowerStr (s : Str) :
    afterFirstSpace (lowerStr s) = lowerStr (afterFirstSpace s) := by
  unfold afterFirstSpace lowerStr
  rw [List.findIdx?_map,
    show ((fun c => c == ' ') ∘ Char.toLower) = fun c => (c == ' ') from
      funext fun c => toLower_beq_space c]
  cases h : List.findIdx? (fun c => c == ' ') s with
  | none => rfl
  | some i => exact (List.map_drop _ _ _).symm

theorem dropWhile_lowerStr (s : Str) :
    (lowerStr s).dropWhile Char.isWhitespace
      = lowerStr (s.dropWhile Char.isWhitespace) := by
  unfold lowerStr
  rw [List.dropWhile_map,
    show (Char.isWhitespace ∘ Char.toLower) = Char.isWhitespace from
      funext fun c => toLower_isWhitespace c]

theorem splitWsF_lower : ∀ fuel s,
    splitWsF fuel (lowerStr s) = (splitWsF fuel s).map lowerStr := by
  intro fuel
  induction fuel with
  | zero =>
    intro s
    cases s <;> rfl
  | succ n ih =>
    intro s
    cases s with
    | nil => rfl
    | cons c rest =>
      show splitWsF (n + 1) (Char.toLower c :: lowerStr rest) = _
      simp only [splitWsF]
      rw [toLower_isWhitespace]
      by_cases hw : c.isWhitespace
      · rw [if_pos hw, if_pos hw, dropWhile_lowerStr, ih]
        rfl
      · rw [if_neg hw, if_neg hw, ih]
        cases h : splitWsF n rest with
        | nil => rfl
        | cons w ws => rfl

theorem splitWsJs_lowerStr (s : Str) :
    splitWsJs (lowerStr s) = (splitWsJs s).map lowerStr := by
  unfold splitWsJs
  rw [show (lowerStr s).length = s.length from by simp [lowerStr]]
  exact splitWsF_lower _ s

theorem headD_map_lower (l : List Str) :
    (l.map lowerStr).headD [] = lowerStr (l.headD []) := by
  cases l <;> rfl

theorem tail_map_lower (l : List Str) :
    (l.map lowerStr).tail = l.tail.map lowerStr := by
  cases l <;> rfl

theorem joinSpace_map_lower (l : List Str) :
    joinSpace (l.map lowerStr) = lowerStr (joinSpace l) := by
  induction l with
  | nil => rfl
  | cons w ws ih =>
    cases ws with
    | nil => rfl
    | cons v vs =>
      show joinSpace (lowerStr w :: (v :: vs).map lowerStr) = _
      rw [show joinSpace (lowerStr w :: (v :: vs).map lowerStr)
            = lowerStr w ++ ' ' :: joinSpace ((v :: vs).map lowerStr) from rfl]
      rw [ih]
      show _ = lowerStr (w ++ ' ' :: joinSpace (v :: vs))
      unfold lowerStr
      rw [List.map_append, List.map_cons]
      rfl

theorem globMatchF_lower : ∀ fuel p s,
    globMatchF fuel (lowerStr p) s = globMatchF fuel p s := by
  intro fuel
  induction fuel with
  | zero =>
    intro p s
    cases p with
    | nil => cases s <;> rfl
    | cons c p => rfl
  | succ n ih =>
    intro p s
    cases p with
    | nil => cases s <;> rfl
    | cons c p =>
      show globMatchF (n + 1) (Char.toLower c :: lowerStr p) s = _
      simp only [globMatchF]
      by_cases hc : c = '*'
      · rw [if_pos ((toLower_eq_iff_nonletter (by decide) (by decide)).mpr hc),
          if_pos hc, ih p s]
        cases s with
        | nil => rfl
        | cons x s' =>
          simp only
          rw [show Char.toLower c :: lowerStr p = lowerStr (c :: p) from rfl,
            ih (c :: p) s']
      · rw [if_neg (fun h => hc ((toLower_eq_iff_nonletter (by decide) (by decide)).mp h)),
          if_neg hc]
        cases s with
        | nil => rfl
        | cons x s' =>
          simp only
          rw [ih p s']
          by_cases hq : c = '?'
          · rw [if_pos ((toLower_eq_iff_nonletter (by decide) (by decide)).mpr hq),
              if_pos hq]
          · rw [if_neg (fun h => hq ((toLower_eq_iff_nonletter (by decide) (by decide)).mp h)),
              if_neg hq, toLower_idem]

theorem globMatch_lower (p n : Str) : globMatch (lowerStr p) n = globMatch p n := by
  unfold globMatch
  rw [show (lowerStr p).length = p.length from by simp [lowerStr]]
  exact globMatchF_lower _ p n

theorem resolveExactGroup_lower (groups : List TabGroup) (x : Str) :
    resolveExactGroup groups (lowerStr x) = resolveExactGroup groups x := by
  unfold resolveExactGroup
  congr 1
  funext g
  rw [lowerStr_idem]

theorem resolveSubGroup_lower (groups : List TabGroup) (x : Str) :
    resolveSubGroup groups (lowerStr x) = resolveSubGroup groups x := by
  unfold resolveSubGroup
  congr 1
  funext g
  rw [lowerStr_idem]

/-- Command recognition is fully case-insensitive: lower-casing the input
line changes neither the handled flag nor any effect. -/
theorem checkVimCommand_lower (p : ProviderState) (inp : InputState) (line : Str) :
    checkVimCommand p inp (lowerStr line) = checkVimCommand p inp line := by
  simp only [checkVimCommand]
  rw [trimStr_lowerStr, lowerStr_idem, afterFirstSpace_lowerStr, trimStr_lowerStr,
    splitWsJs_lowerStr, resolveExactGroup_lower, headD_map_lower, tail_map_lower,
    joinSpace_map_lower, lowerStr_isEmpty, resolveSubGroup_lower, lowerStr_idem,
    resolveSubGroup_lower]
  simp only [globMatch_lower]

theorem checkVim_all_dispatch (p : ProviderState) (inp : InputState) (line : Str)
    (h : lowerStr (trimStr line) = ((":a").data) ∨ lowerStr (trimStr line) = ((":all").data)) :
    checkVimCommand p inp line =
      (true, p, clearLine { inp with broadcastMode := .all, customGroupId := none }) := by
  simp only [checkVimCommand]
  rcases h with h | h <;> rw [h] <;> simp

theorem trimStr_gspace (name : Str) (h : trimStr name ≠ []) :
    trimStr ((":g ").data ++ name) =
      (":g ").data ++ ((name.reverse.dropWhile Char.isWhitespace).reverse) := by
  have hne : name.reverse.dropWhile Char.isWhitespace ≠ [] := by
    intro hnil
    apply h
    have hall : ∀ c ∈ name.reverse, c.isWhitespace = true :=
      List.dropWhile_eq_nil_iff.mp hnil
    have hall' : ∀ c ∈ name, c.isWhitespace = true := fun c hc =>
      hall c (List.mem_reverse.mpr hc)
    unfold trimStr
    rw [List.dropWhile_eq_nil_iff.mpr hall']
    rfl
  unfold trimStr
  rw [show ((":g ").data ++ name) = ':' :: 'g' :: ' ' :: name from rfl,
    List.dropWhile_cons]
  rw [if_neg (by decide : ¬((':').isWhitespace = true))]
  rw [show (':' :: 'g' :: ' ' :: name).reverse = name.reverse ++ [' ', 'g', ':'] from by
      simp]
  rw [List.dropWhile_append]
  rw [if_neg (by
    simp only [List.isEmpty_iff]
    exact hne)]
  rw [List.reverse_append]
  simp

theorem afterFirstSpace_gspace (name : Str) :
    afterFirstSpace ((":g ").data ++ name) = name := by
  unfold afterFirstSpace
  rw [show ((":g ").data ++ name) = ':' :: 'g' :: ' ' :: name from rfl]
  simp [List.findIdx?_cons]

theorem checkVim_g_semantics (p : ProviderState) (inp : InputState) (name : Str)
    (h : trimStr name ≠ []) :
    checkVimCommand p inp ((":g ").data ++ name) =
      (match resolveExactGroup p.groups (trimStr name) with
       | some g => (true, p,
           clearLine { inp with broadcastMode := .custom, customGroupId := some g.id })
       | none => (false, p, inp)) := by
  simp only [checkVimCommand]
  rw [trimStr_gspace name h, afterFirstSpace_gspace]
  rw [show lowerStr ((":g ").data ++ ((name.reverse.dropWhile Char.isWhitespace).reverse))
        = ':' :: 'g' :: ' ' :: lowerStr ((name.reverse.dropWhile Char.isWhitespace).reverse)
      from by unfold lowerStr; simp]
  simp [startsWithStr, List.isPrefixOf]

/-- Concrete groups/provider/input for the C7 theorems. -/
def c7Provider : ProviderState :=
  { sessions := []
    groups := [{ id := ("g1").data, name := ("Lab").data, color := ("#58a6ff").data }]
    activeSessionId := none
    activeGroupId := none }

/-- Concrete input state for the C7 theorems. -/
def c7Input : InputState :=
  { broadcastMode := .all, customGroupId := none, currentLine := [], history := [] }

/-- Claim C7 counterexample: `":g Lab"` is recognized and switches the
explicit broadcast group to `Lab`, but the same line with one leading
space, `" :g Lab"`, is not recognized at all (the argument is extracted
from the raw line after its first space, so the group name becomes
`":g Lab"`) and leaves both states unchanged — surrounding whitespace is
not ignored. -/
theorem c7_counterexample_leading_space :
    (checkVimCommand c7Provider c7Input ((":g Lab").data)).1 = true ∧
    (checkVimCommand c7Provider c7Input ((":g Lab").data)).2.2.customGroupId
      = some (("g1").data) ∧
    (checkVimCommand c7Provider c7Input ((" :g Lab").data)).1 = false ∧
    (checkVimCommand c7Provider c7Input ((" :g Lab").data)).2 = (c7Provider, c7Input) := by
  decide

/-- Claim C7 (amended): command recognition is fully case-insensitive
(lower-casing the line changes nothing); the argument-less commands
(`:a`/`:all` shown here) depend only on the trimmed lower-cased line, so
surrounding whitespace is ignored for them; and a line of the exact form
`":g " ++ name` switches the broadcast mode to the named group precisely
when some group's name equals the trimmed argument case-insensitively
(the first such group), while an unresolved name leaves both the mode and
all state unchanged.  Leading whitespace before an argument-taking
command, however, corrupts the argument extraction (see the
counterexample), so whitespace-insensitivity does not extend to those
lines. -/
theorem command_recognition_case_insensitive_exact_group
    (p : ProviderState) (inp : InputState) :
    (∀ l, checkVimCommand p inp (lowerStr l) = checkVimCommand p inp l) ∧
    (∀ l, (lowerStr (trimStr l) = ((":a").data) ∨ lowerStr (trimStr l) = ((":all").data)) →
      checkVimCommand p inp l =
        (true, p, clearLine { inp with broadcastMode := .all, customGroupId := none })) ∧
    (∀ name, trimStr name ≠ [] →
      checkVimCommand p inp ((":g ").data ++ name) =
        (match resolveExactGroup p.groups (trimStr name) with
         | some g => (true, p,
             clearLine { inp with broadcastMode := .custom, customGroupId := some g.id })
         | none => (false, p, inp))) :=
  ⟨fun l => checkVimCommand_lower p inp l,
   fun l h => checkVim_all_dispatch p inp l h,
   fun name h => checkVim_g_semantics p inp name h⟩

/-- Witness for C7: a padded upper-case `"  :A "` resets the mode to All,
and `":g Lab  "` (trailing whitespace) resolves the group `Lab`. -/
theorem command_recognition_case_insensitive_exact_group_witness :
    checkVimCommand c7Provider c7Input (("  :A ").data) =
      (true, c7Provider,
        clearLine { c7Input with broadcastMode := .all, customGroupId := none }) ∧
    (checkVimCommand c7Provider c7Input ((":g Lab  ").data)).2.2.customGroupId
      = some (("g1").data) := by
  have h := command_recognition_case_insensitive_exact_group c7Provider c7Input
  constructor
  · exact h.2.1 _ (by decide)
  · rw [show ((":g Lab  ").data) = ((":g ").data ++ (("Lab  ").data)) from rfl,
      h.2.2 (("Lab  ").data) (by decide)]
    decide

/-! ## Claim C4 -/

/-- The glob semantics as the spec words them, parameterized by which
characters a wildcard may consume: `*` matches any run of `anyCh`
characters, `?` exactly one, every other pattern character matches itself
case-insensitively, and the match is full-string anchored.  Instantiating
`anyCh` with `True` gives the claim's reading («any character»);
instantiating it with «not a line terminator» gives the semantics of the
JavaScript regex the code builds. -/
inductive GlobSpec (anyCh : Char → Prop) : Str → Str → Prop
  | nil : GlobSpec anyCh [] []
  | lit {c x : Char} {p s : Str} : c ≠ '*' → c ≠ '?' → c.toLower = x.toLower →
      GlobSpec anyCh p s → GlobSpec anyCh (c :: p) (x :: s)
  | one {x : Char} {p s : Str} : anyCh x → GlobSpec anyCh p s →
      GlobSpec anyCh ('?' :: p) (x :: s)
  | star {p run rest : Str} : (∀ c ∈ run, anyCh c) → GlobSpec anyCh p rest →
      GlobSpec anyCh ('*' :: p) (run ++ rest)

/-- The character class of the JavaScript `.`: anything that is not a line
terminator. -/
def nonTerm (c : Char) : Prop := isLineTerminator c = false

theorem globSpec_star_inv {anyCh : Char → Prop} {p s : Str}
    (h : GlobSpec anyCh ('*' :: p) s) :
    ∃ run rest, s = run ++ rest ∧ (∀ c ∈ run, anyCh c) ∧ GlobSpec anyCh p rest := by
  cases h with
  | lit hc _ _ _ => exact absurd rfl hc
  | star hrun hrest => exact ⟨_, _, rfl, hrun, hrest⟩

theorem globSpec_cons_inv {anyCh : Char → Prop} {c : Char} {p s : Str}
    (hc : c ≠ '*') (h : GlobSpec anyCh (c :: p) s) :
    ∃ x s', s = x :: s' ∧
      ((c = '?' ∧ anyCh x) ∨ (c ≠ '?' ∧ c.toLower = x.toLower)) ∧
      GlobSpec anyCh p s' := by
  cases h with
  | lit hc' hq heq hsub => exact ⟨_, _, rfl, Or.inr ⟨hq, heq⟩, hsub⟩
  | one hany hsub => exact ⟨_, _, rfl, Or.inl ⟨rfl, hany⟩, hsub⟩
  | star hrun hrest => exact absurd rfl hc

theorem globSpec_cons_nil {anyCh : Char → Prop} {c : Char} {p : Str}
    (hc : c ≠ '*') : ¬ GlobSpec anyCh (c :: p) [] := by
  have haux : ∀ s, GlobSpec anyCh (c :: p) s → s = [] → False := by
    intro s h
    cases h with
    | lit _ _ _ _ => intro he; cases he
    | one _ _ => intro he; cases he
    | star hrun hrest => intro _; exact hc rfl
  exact fun h => haux [] h rfl

theorem globMatchF_spec : ∀ fuel p s, p.length + s.length ≤ fuel →
    (globMatchF fuel p s = true ↔ GlobSpec nonTerm p s) := by
  intro fuel
  induction fuel with
  | zero =>
    intro p s h
    cases p with
    | nil =>
      cases s with
      | nil => exact ⟨fun _ => .nil, fun _ => rfl⟩
      | cons x s' => simp at h
    | cons c p => simp at h
  | succ n ih =>
    intro p s h
    cases p with
    | nil =>
      cases s with
      | nil => exact ⟨fun _ => .nil, fun _ => rfl⟩
      | cons x s' =>
        constructor
        · intro hF
          cases hF
        · intro hspec
          cases hspec
    | cons c p =>
      simp only [globMatchF]
      by_cases hc : c = '*'
      · subst hc
        rw [if_pos rfl]
        have hlen : p.length + s.length ≤ n := by
          simp only [List.length_cons] at h
          omega
        constructor
        · intro hor
          rcases Bool.or_eq_true _ _ |>.mp hor with hl | hr
          · exact List.nil_append s ▸ GlobSpec.star (fun c hc => (nomatch hc))
              ((ih p s hlen).mp hl)
          · cases s with
            | nil => cases hr
            | cons x s' =>
              simp only [Bool.and_eq_true, Bool.not_eq_true'] at hr
              have hlen' : ('*' :: p).length + s'.length ≤ n := by
                simp only [List.length_cons] at h ⊢
                omega
              obtain ⟨run, rest, rfl, hrun, hrest⟩ :=
                globSpec_star_inv ((ih ('*' :: p) s' hlen').mp hr.2)
              exact @GlobSpec.star nonTerm p (x :: run) rest
                (fun c hc => by
                  rcases List.mem_cons.mp hc with rfl | hc
                  · exact hr.1
                  · exact hrun c hc) hrest
        · intro hspec
          obtain ⟨run, rest, heq, hrun, hrest⟩ := globSpec_star_inv hspec
          subst heq
          apply Bool.or_eq_true _ _ |>.mpr
          cases run with
          | nil =>
            exact Or.inl ((ih p rest (by simpa using hlen)).mpr hrest)
          | cons x run' =>
            refine Or.inr ?_
            simp only [List.cons_append, Bool.and_eq_true, Bool.not_eq_true']
            have hlen' : ('*' :: p).length + (run' ++ rest).length ≤ n := by
              simp only [List.length_cons, List.cons_append, List.length_append] at h ⊢
              omega
            exact ⟨hrun x (List.mem_cons_self x run'),
              (ih ('*' :: p) (run' ++ rest) hlen').mpr
                (GlobSpec.star (fun c hc => hrun c (List.mem_cons_of_mem _ hc)) hrest)⟩
      · rw [if_neg hc]
        cases s with
        | nil =>
          constructor
          · intro hF
            cases hF
          · intro hspec
            exact absurd hspec (globSpec_cons_nil hc)
        | cons x s' =>
          have hlen : p.length + s'.length ≤ n := by
            simp only [List.length_cons] at h
            omega
          simp only [Bool.and_eq_true]
          constructor
          · intro ⟨h1, h2⟩
            have hsub := (ih p s' hlen).mp h2
            by_cases hq : c = '?'
            · subst hq
              rw [if_pos rfl] at h1
              exact GlobSpec.one (by simpa [nonTerm, Bool.not_eq_true'] using h1) hsub
            · rw [if_neg hq] at h1
              exact GlobSpec.lit hc hq (by simpa using h1) hsub
          · intro hspec
            obtain ⟨y, t, heq, hmid, hsub⟩ := globSpec_cons_inv hc hspec
            injection heq with h1 h2
            subst h1
            subst h2
            rcases hmid with ⟨hq, hany⟩ | ⟨hq, heq'⟩
            · subst hq
              rw [if_pos rfl]
              exact ⟨by simpa [nonTerm, Bool.not_eq_true'] using hany,
                (ih p s' hlen).mpr hsub⟩
            · rw [if_neg hq]
              exact ⟨by simpa using heq', (ih p s' hlen).mpr hsub⟩

theorem globMatch_spec (p s : Str) :
    globMatch p s = true ↔ GlobSpec nonTerm p s :=
  globMatchF_spec _ p s (Nat.le_refl _)

/-- Claim C4 counterexample: under the claim's semantics (`?` matches
exactly one character, any character) the pattern `"?"` matches the
one-character name `"\n"`, but the code's glob match rejects it, because
the compiled regex `.` does not match line terminators. -/
theorem c4_counterexample_newline :
    globMatch (("?").data) (("\n").data) = false ∧
    GlobSpec (fun _ => True) (("?").data) (("\n").data) :=
  ⟨by decide, GlobSpec.one trivial GlobSpec.nil⟩

/-- Claim C4 (amended): the `:m` pattern match (`globMatch`, applied by
`checkVimCommand` to every session display name) implements glob
semantics with full-string anchoring and ASCII case-insensitivity, where
`*` matches any run of non-line-terminator characters and `?` matches
exactly one non-line-terminator character (the JavaScript `.` excludes
`\n`, `\r`, U+2028 and U+2029); in particular `R-*` matches `R-1`,
`R-22` and `R-CID1` but not `SW-1`, and `R-?` matches `R-1` but not
`R-10`. -/
theorem glob_semantics_of_move_pattern :
    (∀ p s, globMatch p s = true ↔ GlobSpec nonTerm p s) ∧
    globMatch (("R-*").data) (("R-1").data) = true ∧
    globMatch (("R-*").data) (("R-22").data) = true ∧
    globMatch (("R-*").data) (("R-CID1").data) = true ∧
    globMatch (("R-*").data) (("SW-1").data) = false ∧
    globMatch (("R-?").data) (("R-1").data) = true ∧
    globMatch (("R-?").data) (("R-10").data) = false :=
  ⟨globMatch_spec, by decide, by decide, by decide, by decide, by decide, by decide⟩

/-! ## Cisco IOS output highlighter (`src/src/utils/ciscoHighlight.ts`)

The highlighter rewrites terminal output by a fixed sequence of global
regex-replace passes.  Each JavaScript regex is embedded as a
backtracking matcher in continuation-passing style: an `Rx` takes the
subject and a start position and feeds every candidate end position, in
the engine's backtracking order, to a continuation, returning its first
success.  All recursion is structural or fuel-indexed so that the kernel
can evaluate matchers on concrete strings. -/

/-- ANSI reset sequence (`ANSI.reset`). -/
def ansiReset : Str := "\x1b[0m".data

/-- Command color (`ANSI.command`, bright blue). -/
def ansiCommand : Str := "\x1b[38;5;75m".data

/-- Protocol color (`ANSI.protocol`, magenta). -/
def ansiProtocol : Str := "\x1b[38;5;177m".data

/-- Interface color (`ANSI.interface`, orange). -/
def ansiInterface : Str := "\x1b[38;5;215m".data

/-- IP-address color (`ANSI.ip`, yellow). -/
def ansiIp : Str := "\x1b[38;5;221m".data

/-- Status-up color (`ANSI.statusUp`, bright green). -/
def ansiStatusUp : Str := "\x1b[38;5;46m".data

/-- Status-down color (`ANSI.statusDown`, red). -/
def ansiStatusDown : Str := "\x1b[38;5;196m".data

/-- Prompt color (`ANSI.prompt`, bold white). -/
def ansiPrompt : Str := "\x1b[1;37m".data

/-- The regex class `\d`. -/
def isDigitCh (c : Char) : Bool := '0' ≤ c && c ≤ '9'

/-- ASCII letters `[A-Za-z]`. -/
def isAlphaCh (c : Char) : Bool := ('A' ≤ c && c ≤ 'Z') || ('a' ≤ c && c ≤ 'z')

/-- The regex word class `\w = [A-Za-z0-9_]`, which defines `\b`. -/
def isWordCh (c : Char) : Bool := isAlphaCh c || isDigitCh c || c == '_'

/-- The hex-digit class `[0-9a-fA-F]`. -/
def isHexCh (c : Char) : Bool :=
  isDigitCh c || ('a' ≤ c && c ≤ 'f') || ('A' ≤ c && c ≤ 'F')

/-- The class `[0-9a-fA-F:]` of the first IPv6 alternative. -/
def isHexColonCh (c : Char) : Bool := isHexCh c || c == ':'

/-- The class `[A-Za-z0-9_-]` of the prompt body. -/
def isPromptBodyCh (c : Char) : Bool :=
  isAlphaCh c || isDigitCh c || c == '_' || c == '-'

/-- The class `[a-z-]` of the prompt's parenthesised config mode. -/
def isLowerDashCh (c : Char) : Bool := ('a' ≤ c && c ≤ 'z') || c == '-'

/-- The JavaScript regex class `\s` (WhiteSpace plus LineTerminator). -/
def jsWhitespace (c : Char) : Bool :=
  c == ' ' || c == '\t' || c == '\n' || c == '\x0b' || c == '\x0c' ||
  c == '\r' || c == '\u00a0' || c == '\u1680' ||
  ('\u2000' ≤ c && c ≤ '\u200a') || c == '\u2028' || c == '\u2029' ||
  c == '\u202f' || c == '\u205f' || c == '\u3000' || c == '\ufeff'

/-- Whether the character at position `i` (if any) is a word character. -/
def isWordAt (s : Str) (i : Nat) : Bool :=
  match s[i]? with
  | some c => isWordCh c
  | none => false

/-- The regex assertion `\b`: a word character on exactly one side of the
position. -/
def boundaryAt (s : Str) (i : Nat) : Bool :=
  (match i with
   | 0 => false
   | j + 1 => isWordAt s j) != isWordAt s i

/-- A regex fragment in continuation-passing style: from a start position
it offers every candidate end position to the continuation in the
JavaScript engine's backtracking order and returns the first success. -/
def Rx : Type := Str → Nat → (Nat → Option Nat) → Option Nat

/-- The empty fragment. -/
def pEmpty : Rx := fun _ i k => k i

/-- The failing fragment. -/
def pFail : Rx := fun _ _ _ => none

/-- Sequencing of two fragments. -/
def pSeq (a b : Rx) : Rx := fun s i k => a s i (fun j => b s j k)

/-- Sequencing of a list of fragments. -/
def pSeqAll (l : List Rx) : Rx := l.foldr pSeq pEmpty

/-- Ordered alternation `a|b`: the left alternative is preferred. -/
def pAlt (a b : Rx) : Rx := fun s i k => (a s i k).orElse (fun _ => b s i k)

/-- Ordered alternation over a list, in source order. -/
def pAltList (l : List Rx) : Rx := l.foldr pAlt pFail

/-- Greedy option `(?:a)?`: matching `a` is preferred over skipping it. -/
def pOpt (a : Rx) : Rx := fun s i k => (a s i k).orElse (fun _ => k i)

/-- The assertion `\b`. -/
def pBound : Rx := fun s i k => if boundaryAt s i then k i else none

/-- The multiline anchor `^`: start of subject or just after a line
terminator. -/
def pLineStart : Rx := fun s i k =>
  match i with
  | 0 => k 0
  | j + 1 =>
    match s[j]? with
    | some c => if isLineTerminator c then k i else none
    | none => none

/-- One character satisfying a class. -/
def pCharIf (p : Char → Bool) : Rx := fun s i k =>
  match s[i]? with
  | some c => if p c then k (i + 1) else none
  | none => none

/-- One literal character. -/
def pChar (c : Char) : Rx := pCharIf (fun x => x == c)

/-- Case-insensitive literal comparison of `w` against the subject at
position `i`, the `i`-flag canonicalisation restricted to ASCII (all the
embedded literals are ASCII, and JavaScript's non-Unicode canonicalisation
never equates a non-ASCII subject character with an ASCII literal). -/
def matchesCi : Str → Str → Nat → Bool
  | [], _, _ => true
  | c :: w, s, i =>
    (match s[i]? with
     | some x => c.toLower == x.toLower
     | none => false) && matchesCi w s (i + 1)

/-- A case-insensitive literal word. -/
def pStrCi (w : Str) : Rx := fun s i k =>
  if matchesCi w s i then k (i + w.length) else none

/-- Offer the counts `hi, hi-1, ..., lo` to the continuation in that
order: the backtracking order of a greedy counted repetition. -/
def tryDownFrom (k : Nat → Option Nat) (lo : Nat) : Nat → Option Nat
  | 0 => if lo = 0 then k 0 else none
  | hi + 1 =>
    if hi + 1 < lo then none
    else (k (hi + 1)).orElse (fun _ => tryDownFrom k lo hi)

/-- Length of the run of class characters starting at position `i`. -/
def classRun (cls : Char → Bool) (s : Str) (i : Nat) : Nat :=
  ((s.drop i).takeWhile cls).length

/-- Greedy counted repetition `cls{lo,hi}` over a character class. -/
def pRepCls (cls : Char → Bool) (lo hi : Nat) : Rx := fun s i k =>
  tryDownFrom (fun n => k (i + n)) lo (min (classRun cls s i) hi)

/-- Greedy `cls+` over a character class. -/
def pPlusCls (cls : Char → Bool) : Rx := fun s i k =>
  tryDownFrom (fun n => k (i + n)) 1 (classRun cls s i)

/-- Greedy `cls*` over a character class. -/
def pStarCls (cls : Char → Bool) : Rx := fun s i k =>
  tryDownFrom (fun n => k (i + n)) 0 (classRun cls s i)

/-- Greedy `(?:a)*` over a subfragment, fuel-indexed; every iteration must
consume at least one character (as the engine stops on empty iterations),
so `s.length + 1` fuel is never exhausted. -/
def pStarP (a : Rx) : Nat → Rx
  | 0 => pEmpty
  | fuel + 1 => fun s i k =>
    (a s i (fun j => if i < j then pStarP a fuel s j k else none)).orElse
      (fun _ => k i)

/-- Greedy `(?:a)*` with the fuel supplied from the subject length. -/
def pStarOf (a : Rx) : Rx := fun s i k => pStarP a (s.length + 1) s i k

/-- A matcher: the length of the match found at a position, if any. -/
def Matcher : Type := Str → Nat → Option Nat

/-- Run a fragment as a matcher, accepting the first candidate end. -/
def runRx (a : Rx) : Matcher := fun s i =>
  (a s i (fun j => some j)).map (fun j => j - i)

/-- An IPv4 octet `\d{1,3}`. -/
def octetRx : Rx := pRepCls isDigitCh 1 3

/-- The regex `\b(\d{1,3}\.\d{1,3}\.\d{1,3}\.\d{1,3}(?:\/\d{1,2})?)\b`. -/
def IPV4_PATTERN : Rx :=
  pSeqAll [pBound,
    octetRx, pChar '.', octetRx, pChar '.', octetRx, pChar '.', octetRx,
    pOpt (pSeqAll [pChar '/', pRepCls isDigitCh 1 2]),
    pBound]

/-- The regex
`\b([0-9a-fA-F:]+::[0-9a-fA-F:]*|[0-9a-fA-F]{1,4}(?::[0-9a-fA-F]{1,4}){7})(?:\/\d{1,3})?\b`. -/
def IPV6_PATTERN : Rx :=
  pSeqAll [pBound,
    pAlt
      (pSeqAll [pPlusCls isHexColonCh, pChar ':', pChar ':',
        pStarCls isHexColonCh])
      (pSeqAll ([pRepCls isHexCh 1 4] ++
        List.replicate 7 (pSeqAll [pChar ':', pRepCls isHexCh 1 4]))),
    pOpt (pSeqAll [pChar '/', pRepCls isDigitCh 1 3]),
    pBound]

/-- The regex
`\b([0-9a-fA-F]{4}\.[0-9a-fA-F]{4}\.[0-9a-fA-F]{4}|[0-9a-fA-F]{2}(?::[0-9a-fA-F]{2}){5})\b`. -/
def MAC_PATTERN : Rx :=
  pSeqAll [pBound,
    pAlt
      (pSeqAll [pRepCls isHexCh 4 4, pChar '.', pRepCls isHexCh 4 4,
        pChar '.', pRepCls isHexCh 4 4])
      (pSeqAll ([pRepCls isHexCh 2 2] ++
        List.replicate 5 (pSeqAll [pChar ':', pRepCls isHexCh 2 2]))),
    pBound]

/-- The numeric tail `\d+(?:\/\d+)*(?:\.\d+)?\b` shared by the first four
interface patterns. -/
def ifaceFullTail : Rx :=
  pSeqAll [pPlusCls isDigitCh,
    pStarOf (pSeqAll [pChar '/', pPlusCls isDigitCh]),
    pOpt (pSeqAll [pChar '.', pPlusCls isDigitCh]),
    pBound]

/-- The numeric tail `\d+\b` of the remaining interface patterns. -/
def ifaceSimpleTail : Rx := pSeqAll [pPlusCls isDigitCh, pBound]

/-- The eleven `INTERFACE_PATTERNS`, all with the `i` flag, in source
order. -/
def INTERFACE_PATTERNS : List Rx :=
  [pSeqAll [pBound, pStrCi "Gi".data, pOpt (pStrCi "gabit".data),
     pOpt (pStrCi "Ethernet".data), ifaceFullTail],
   pSeqAll [pBound, pStrCi "Fa".data, pOpt (pStrCi "st".data),
     pOpt (pStrCi "Ethernet".data), ifaceFullTail],
   pSeqAll [pBound, pStrCi "Et".data,
     pOpt (pSeqAll [pStrCi "h".data, pOpt (pStrCi "ernet".data)]),
     ifaceFullTail],
   pSeqAll [pBound, pStrCi "Se".data, pOpt (pStrCi "rial".data),
     ifaceFullTail],
   pSeqAll [pBound, pStrCi "Lo".data, pOpt (pStrCi "opback".data),
     ifaceSimpleTail],
   pSeqAll [pBound, pStrCi "Vl".data, pOpt (pStrCi "an".data),
     ifaceSimpleTail],
   pSeqAll [pBound, pStrCi "Tu".data, pOpt (pStrCi "nnel".data),
     ifaceSimpleTail],
   pSeqAll [pBound, pStrCi "Po".data, pOpt (pStrCi "rt-channel".data),
     ifaceSimpleTail],
   pSeqAll [pBound, pStrCi "Null".data, ifaceSimpleTail],
   pSeqAll [pBound, pStrCi "Dialer".data, ifaceSimpleTail],
   pSeqAll [pBound, pStrCi "BVI".data, ifaceSimpleTail]]

/-- The prompt regex `^([A-Za-z][A-Za-z0-9_-]*(?:\([a-z-]+\))?[#>])\s*`
with the `gm` flags (and no `i` flag). -/
def PROMPT_PATTERN : Rx :=
  pSeqAll [pLineStart, pCharIf isAlphaCh, pStarCls isPromptBodyCh,
    pOpt (pSeqAll [pChar '(', pPlusCls isLowerDashCh, pChar ')']),
    pCharIf (fun c => c == '#' || c == '>'),
    pStarCls jsWhitespace]

/-- The `COMMANDS` set, in insertion order. -/
def COMMANDS : List Str :=
  ["show", "configure", "terminal", "interface", "router", "ip",
   "no", "enable", "disable", "shutdown", "exit", "end", "write",
   "copy", "ping", "traceroute", "debug", "undebug", "clear",
   "reload", "hostname", "banner", "line", "logging", "snmp-server",
   "access-list", "route-map", "prefix-list", "crypto", "tunnel",
   "clock", "ntp", "spanning-tree", "vlan", "switchport", "channel-group",
   "description", "speed", "duplex", "negotiate", "encapsulation",
   "service", "aaa", "username", "password", "secret", "privilege",
   "exec-timeout", "transport", "login", "vty", "console", "aux",
   "memory", "running-config", "startup-config", "version", "brief",
   "detail", "summary", "status", "neighbors", "run", "start"].map
    String.data

/-- The `PROTOCOLS` set, in insertion order. -/
def PROTOCOLS : List Str :=
  ["ospf", "eigrp", "bgp", "rip", "isis", "mpls", "ldp", "vrf",
   "tcp", "udp", "icmp", "arp", "dhcp", "dns", "http", "https",
   "ssh", "telnet", "ftp", "tftp", "snmp", "ntp", "syslog",
   "hsrp", "vrrp", "glbp", "lacp", "pagp", "stp", "rstp", "mstp",
   "pvst", "dot1q", "isl", "gre", "ipsec", "isakmp", "esp", "ah",
   "radius", "tacacs", "ldap", "ppp", "hdlc", "frame-relay",
   "ethernet", "gigabitethernet", "fastethernet", "serial"].map
    String.data

/-- The `STATUS_UP` set, in insertion order. -/
def STATUS_UP : List Str :=
  ["up", "established", "connected", "enabled", "active", "full",
   "forwarding"].map String.data

/-- The `STATUS_DOWN` set, in insertion order. -/
def STATUS_DOWN : List Str :=
  ["down", "disabled", "inactive", "administratively", "blocking",
   "err-disabled", "notconnect"].map String.data

/-- A whole-word alternation regex `\b(w1|w2|...)\b` with the `gi` flags,
built from a keyword set in insertion order, as the four keyword passes
build theirs. -/
def wordSetRx (words : List Str) : Rx :=
  pSeqAll [pBound, pAltList (words.map pStrCi), pBound]

/-- Scan backwards from position `i` over at most `fuel` characters for
an ESC character. -/
def findEscBack (s : Str) : Nat → Nat → Option Nat
  | _, 0 => none
  | i, fuel + 1 =>
    if s[i]? == some '\x1b' then some i
    else
      match i with
      | 0 => none
      | j + 1 => findEscBack s j fuel

/-- `isInsideAnsiSequence(text, position)`: look back up to 20 characters
(positions `position-1` down to `position-20`) for an ESC; if found,
the position is inside the sequence unless the substring from the ESC up
to (excluding) the position contains the terminator `m`. -/
def isInsideAnsiSequence (s : Str) (position : Nat) : Bool :=
  match position with
  | 0 => false
  | p + 1 =>
    match findEscBack s p 20 with
    | none => false
    | some escPos => !(((s.drop escPos).take (position - escPos)).contains 'm')

/-- The list of matches of a global regex in a single `replace` pass:
from position `i`, take the first match, then continue just after it
(matches are consumed even when the callback declines to rewrite them);
`s.length` fuel suffices as every step advances the position. -/
def scanMatchesF : Nat → Matcher → Str → Nat → List (Nat × Nat)
  | 0, _, _, _ => []
  | fuel + 1, m, s, i =>
    if i < s.length then
      match m s i with
      | some len =>
        if len = 0 then scanMatchesF fuel m s (i + 1)
        else (i, len) :: scanMatchesF fuel m s (i + len)
      | none => scanMatchesF fuel m s (i + 1)
    else []

/-- All matches (offset, length) of a matcher over a subject; none of the
embedded patterns can match the empty string, so stopping at `s.length`
is faithful. -/
def scanMatches (m : Matcher) (s : Str) : List (Nat × Nat) :=
  scanMatchesF s.length m s 0

/-- The text of a match. -/
def matchedText (s : Str) (off len : Nat) : Str := (s.drop off).take len

/-- Rebuild the subject from position `i`, wrapping each listed match in
`color`...`ANSI.reset`. -/
def applyWraps (s color : Str) : List (Nat × Nat) → Nat → Str
  | [], i => s.drop i
  | pr :: rest, i =>
    ((s.drop i).take (pr.1 - i)) ++ (color ++ (matchedText s pr.1 pr.2 ++
      (ansiReset ++ applyWraps s color rest (pr.1 + pr.2))))

/-- The two skip conditions of `safeReplace`'s callback: the match offset
must not lie inside an existing ANSI sequence of the pass's input, and
the optional validator must accept the matched text. -/
def passesGuards (validator : Option (Str → Bool)) (s : Str)
    (pr : Nat × Nat) : Bool :=
  !isInsideAnsiSequence s pr.1 &&
    (match validator with
     | some v => v (matchedText s pr.1 pr.2)
     | none => true)

/-- `safeReplace(pattern, colorCode, validator?)`: one global replace
pass; every match either passes both guards and is wrapped in the color
and a reset, or is reproduced unchanged. -/
def safeReplace (m : Matcher) (color : Str) (validator : Option (Str → Bool))
    (s : Str) : Str :=
  applyWraps s color ((scanMatches m s).filter (passesGuards validator s)) 0

/-- The prompt pass: a plain `replace` that wraps every match, with no
ANSI guard and no validator. -/
def promptReplace (s : Str) : Str :=
  applyWraps s ansiPrompt (scanMatches (runRx PROMPT_PATTERN) s) 0

/-- `String.prototype.split` on a single separator character: JavaScript
returns `[""]` for the empty string and keeps empty fields. -/
def splitOnCh (sep : Char) : Str → List Str
  | [] => [[]]
  | c :: rest =>
    if c == sep then [] :: splitOnCh sep rest
    else
      match splitOnCh sep rest with
      | [] => [[c]]
      | w :: ws => (c :: w) :: ws

/-- Value of a string of decimal digits. -/
def digitsVal (ds : Str) : Nat :=
  ds.foldl (fun acc c => acc * 10 + (c.toNat - 48)) 0

/-- The longest digit prefix, if nonempty. -/
def digitsPrefixVal (s : Str) : Option Nat :=
  let ds := s.takeWhile isDigitCh
  if ds.isEmpty then none else some (digitsVal ds)

/-- `parseInt(s, 10)`: skip whitespace, accept an optional sign, then the
longest digit prefix; `none` models `NaN` (both numeric comparisons
against a `NaN` are false). -/
def jsParseInt10 (s : Str) : Option Int :=
  match s.dropWhile jsWhitespace with
  | [] => none
  | c :: rest =>
    if c == '-' then (digitsPrefixVal rest).map (fun n => -(n : Int))
    else if c == '+' then (digitsPrefixVal rest).map (fun n => (n : Int))
    else (digitsPrefixVal (c :: rest)).map (fun n => (n : Int))

/-- The IPv4 validator closure: strip an optional CIDR suffix, split the
rest on dots, and require every part to parse to an integer in 0..255. -/
def ipv4Validator (m : Str) : Bool :=
  (splitOnCh '.' ((splitOnCh '/' m).headD [])).all (fun p =>
    match jsParseInt10 p with
    | some n => decide (0 ≤ n) && decide (n ≤ 255)
    | none => false)

/-- `highlightCiscoOutput(text, enabled)`: the guarded nine-stage pass
pipeline in source order (IPv4 with validator, IPv6, MAC, the eleven
interface patterns, prompts, status-up, status-down, commands,
protocols). -/
def highlightCiscoOutput (text : Str) (enabled : Bool) : Str :=
  if !enabled || text.isEmpty then text
  else if text.length < 2 then text
  else
    let r := safeReplace (runRx IPV4_PATTERN) ansiIp (some ipv4Validator) text
    let r := safeReplace (runRx IPV6_PATTERN) ansiIp none r
    let r := safeReplace (runRx MAC_PATTERN) ansiProtocol none r
    let r := INTERFACE_PATTERNS.foldl
      (fun acc pat => safeReplace (runRx pat) ansiInterface none acc) r
    let r := promptReplace r
    let r := safeReplace (runRx (wordSetRx STATUS_UP)) ansiStatusUp none r
    let r := safeReplace (runRx (wordSetRx STATUS_DOWN)) ansiStatusDown none r
    let r := safeReplace (runRx (wordSetRx COMMANDS)) ansiCommand none r
    safeReplace (runRx (wordSetRx PROTOCOLS)) ansiProtocol none r

/-! ## Claim C3: the highlighter only inserts, and its ANSI guard -/

/-- Chained match lists: every listed match starts at or after position
`i` and the following matches start at or after its end.  The scanner
produces chained lists because each pass consumes its matches. -/
def ChainFrom : Nat → List (Nat × Nat) → Prop
  | _, [] => True
  | i, pr :: rest => i ≤ pr.1 ∧ ChainFrom (pr.1 + pr.2) rest

theorem chainFrom_mono : ∀ {l : List (Nat × Nat)} {i j : Nat}, j ≤ i →
    ChainFrom i l → ChainFrom j l := by
  intro l
  cases l with
  | nil => intro i j _ _; trivial
  | cons pr rest => intro i j hji h; exact ⟨le_trans hji h.1, h.2⟩

theorem chainFrom_scanMatchesF (m : Matcher) (s : Str) :
    ∀ (fuel i : Nat), ChainFrom i (scanMatchesF fuel m s i) := by
  intro fuel
  induction fuel with
  | zero => intro i; exact trivial
  | succ n ih =>
    intro i
    simp only [scanMatchesF]
    split
    · split
      · split
        · exact chainFrom_mono (Nat.le_succ i) (ih (i + 1))
        · exact ⟨Nat.le_refl i, ih _⟩
      · exact chainFrom_mono (Nat.le_succ i) (ih (i + 1))
    · trivial

theorem chainFrom_filter (p : Nat × Nat → Bool) :
    ∀ {l : List (Nat × Nat)} {i : Nat}, ChainFrom i l →
      ChainFrom i (l.filter p) := by
  intro l
  induction l with
  | nil => intro i _; trivial
  | cons pr rest ih =>
    intro i h
    rw [List.filter_cons]
    split
    · exact ⟨h.1, ih h.2⟩
    · exact ih (chainFrom_mono (le_trans h.1 (Nat.le_add_right _ _)) h.2)

theorem applyWraps_sublist (s color : Str) :
    ∀ (l : List (Nat × Nat)) (i : Nat), ChainFrom i l →
      List.Sublist (s.drop i) (applyWraps s color l i) := by
  intro l
  induction l with
  | nil => intro i _; exact List.Sublist.refl _
  | cons pr rest ih =>
    intro i h
    obtain ⟨h1, h2⟩ := h
    have ihr := ih (pr.1 + pr.2) h2
    have e1 : (s.drop i).drop (pr.1 - i) = s.drop pr.1 := by
      rw [List.drop_drop]
      congr 1
      omega
    have e2 : s.drop pr.1
        = (s.drop pr.1).take pr.2 ++ s.drop (pr.1 + pr.2) := by
      conv_lhs => rw [← List.take_append_drop pr.2 (s.drop pr.1)]
      rw [List.drop_drop]
    have key : s.drop i = (s.drop i).take (pr.1 - i) ++
        ((s.drop pr.1).take pr.2 ++ s.drop (pr.1 + pr.2)) :=
      calc s.drop i
          = (s.drop i).take (pr.1 - i) ++ (s.drop i).drop (pr.1 - i) :=
            (List.take_append_drop _ _).symm
        _ = (s.drop i).take (pr.1 - i) ++ s.drop pr.1 := by rw [e1]
        _ = (s.drop i).take (pr.1 - i) ++
            ((s.drop pr.1).take pr.2 ++ s.drop (pr.1 + pr.2)) := by
              conv_lhs => rw [e2]
    rw [key]
    simp only [applyWraps, matchedText]
    refine List.Sublist.append_left ?_ _
    refine List.Sublist.trans ?_ (List.sublist_append_right color _)
    refine List.Sublist.append_left ?_ _
    exact List.Sublist.trans ihr (List.sublist_append_right ansiReset _)

theorem safeReplace_sublist (m : Matcher) (color : Str)
    (v : Option (Str → Bool)) (s : Str) :
    List.Sublist s (safeReplace m color v s) := by
  have h := chainFrom_filter (passesGuards v s)
    (chainFrom_scanMatchesF m s s.length 0)
  have h2 := applyWraps_sublist s color _ 0 h
  simpa [safeReplace, scanMatches] using h2

theorem promptReplace_sublist (s : Str) :
    List.Sublist s (promptReplace s) := by
  have h2 := applyWraps_sublist s ansiPrompt _ 0
    (chainFrom_scanMatchesF (runRx PROMPT_PATTERN) s s.length 0)
  simpa [promptReplace, scanMatches] using h2

theorem interfaces_foldl_sublist :
    ∀ (pats : List Rx) (r : Str),
      List.Sublist r (pats.foldl
        (fun acc pat => safeReplace (runRx pat) ansiInterface none acc) r) := by
  intro pats
  induction pats with
  | nil => intro r; exact List.Sublist.refl r
  | cons pat rest ih =>
    intro r
    rw [List.foldl_cons]
    exact List.Sublist.trans (safeReplace_sublist _ _ _ _) (ih _)

theorem highlightCiscoOutput_sublist (text : Str) (enabled : Bool) :
    List.Sublist text (highlightCiscoOutput text enabled) := by
  simp only [highlightCiscoOutput]
  split
  · exact List.Sublist.refl _
  · split
    · exact List.Sublist.refl _
    · refine List.Sublist.trans ?_ (safeReplace_sublist _ _ _ _)
      refine List.Sublist.trans ?_ (safeReplace_sublist _ _ _ _)
      refine List.Sublist.trans ?_ (safeReplace_sublist _ _ _ _)
      refine List.Sublist.trans ?_ (safeReplace_sublist _ _ _ _)
      refine List.Sublist.trans ?_ (promptReplace_sublist _)
      refine List.Sublist.trans ?_ (interfaces_foldl_sublist _ _)
      refine List.Sublist.trans ?_ (safeReplace_sublist _ _ _ _)
      refine List.Sublist.trans ?_ (safeReplace_sublist _ _ _ _)
      exact safeReplace_sublist _ _ _ _

theorem filtered_match_not_inside {m : Matcher} {v : Option (Str → Bool)}
    {s : Str} {pr : Nat × Nat}
    (h : pr ∈ (scanMatches m s).filter (passesGuards v s)) :
    isInsideAnsiSequence s pr.1 = false := by
  have hp := List.of_mem_filter h
  simp only [passesGuards, Bool.and_eq_true, Bool.not_eq_true'] at hp
  exact hp.1

/-- C3 (amended): the highlighter is insertion-only (the input survives
as a subsequence of the output, so existing escape sequences are never
altered), and a match of any `safeReplace` pass whose offset lies inside
an unterminated ANSI escape sequence of the pass's input is never
wrapped; moreover, on the input where `show` sits immediately between a
color opener and a reset, no escape is inserted.  The claim's universal
reading — never wrap text anywhere inside the span covered by a
pre-existing color — is refuted by
`c3_counterexample_second_escape`: the guard only protects positions
inside the escape sequence itself (between ESC and its terminating `m`),
not the colored span after it. -/
theorem highlighter_guard_and_insertion_only :
    (∀ (text : Str) (enabled : Bool),
      List.Sublist text (highlightCiscoOutput text enabled)) ∧
    (∀ (m : Matcher) (v : Option (Str → Bool)) (s : Str) (pr : Nat × Nat),
      pr ∈ (scanMatches m s).filter (passesGuards v s) →
        isInsideAnsiSequence s pr.1 = false) ∧
    highlightCiscoOutput "\x1b[38;5;75mshow\x1b[0m".data true
      = "\x1b[38;5;75mshow\x1b[0m".data :=
  ⟨highlightCiscoOutput_sublist,
   fun _ _ _ _ h => filtered_match_not_inside h,
   by decide⟩

/-- Witness for `highlighter_guard_and_insertion_only`: the `show` match
of the commands pass on a concretely colored line starts outside the
(terminated) escape sequence, so the guard lets it through. -/
theorem highlighter_guard_and_insertion_only_witness :
    isInsideAnsiSequence "\x1b[31m show \x1b[0m".data 6 = false :=
  highlighter_guard_and_insertion_only.2.1
    (runRx (wordSetRx COMMANDS)) none "\x1b[31m show \x1b[0m".data (6, 4)
    (by decide)

/-- C3 counterexample: on input with `show` between a red opener and a
reset — inside the range covered by the pre-existing color — the
highlighter inserts a second escape pair around `show`, because
`isInsideAnsiSequence` only rejects offsets between an ESC and its
terminating `m`. -/
theorem c3_counterexample_second_escape :
    highlightCiscoOutput "\x1b[31m show \x1b[0m".data true
      = "\x1b[31m \x1b[38;5;75mshow\x1b[0m \x1b[0m".data := by
  decide

/-! ## Claim C5: the IPv4 validator accepts exactly octets in 0..255 -/

theorem char_le_iff_toNat {a b : Char} : a ≤ b ↔ a.toNat ≤ b.toNat :=
  Char.le_def

theorem digit_toNat_range {c : Char} (h : isDigitCh c = true) :
    48 ≤ c.toNat ∧ c.toNat ≤ 57 := by
  simp only [isDigitCh, Bool.and_eq_true, decide_eq_true_eq] at h
  exact ⟨char_le_iff_toNat.mp h.1, char_le_iff_toNat.mp h.2⟩

theorem digit_beq_eq_false {c d : Char} (h : isDigitCh c = true)
    (hd : d.toNat < 48 ∨ 57 < d.toNat) : (c == d) = false := by
  have hr := digit_toNat_range h
  rw [beq_eq_false_iff_ne]
  intro he
  subst he
  omega

theorem digit_not_jsWs {c : Char} (h : isDigitCh c = true) :
    jsWhitespace c = false := by
  have hr := digit_toNat_range h
  rw [Bool.eq_false_iff]
  intro hw
  simp only [jsWhitespace, Bool.or_eq_true, beq_iff_eq, Bool.and_eq_true,
    decide_eq_true_eq, char_eq_iff_toNat, char_le_iff_toNat,
    show (' ').toNat = 32 from rfl, show ('\t').toNat = 9 from rfl,
    show ('\n').toNat = 10 from rfl, show ('\x0b').toNat = 11 from rfl,
    show ('\x0c').toNat = 12 from rfl, show ('\r').toNat = 13 from rfl,
    show ('\u00a0').toNat = 160 from rfl,
    show ('\u1680').toNat = 5760 from rfl,
    show ('\u2000').toNat = 8192 from rfl,
    show ('\u200a').toNat = 8202 from rfl,
    show ('\u2028').toNat = 8232 from rfl,
    show ('\u2029').toNat = 8233 from rfl,
    show ('\u202f').toNat = 8239 from rfl,
    show ('\u205f').toNat = 8287 from rfl,
    show ('\u3000').toNat = 12288 from rfl,
    show ('\ufeff').toNat = 65279 from rfl] at hw
  omega

theorem jsParseInt10_digits {o : Str} (hne : o ≠ [])
    (hd : ∀ c ∈ o, isDigitCh c = true) :
    jsParseInt10 o = some ((digitsVal o : Nat) : Int) := by
  cases o with
  | nil => exact absurd rfl hne
  | cons c rest =>
    have hc := hd c (List.mem_cons_self c rest)
    have hminus : (c == '-') = false :=
      digit_beq_eq_false hc (Or.inl (by decide))
    have hplus : (c == '+') = false :=
      digit_beq_eq_false hc (Or.inl (by decide))
    have hws : jsWhitespace c = false := digit_not_jsWs hc
    have htake : (c :: rest).takeWhile isDigitCh = c :: rest :=
      List.takeWhile_eq_self_iff.mpr hd
    simp [jsParseInt10, List.dropWhile_cons, hws, hminus, hplus,
      digitsPrefixVal, htake]

theorem splitOnCh_append_sep (sep : Char) (x y : Str)
    (hx : ∀ c ∈ x, (c == sep) = false) :
    splitOnCh sep (x ++ sep :: y) = x :: splitOnCh sep y := by
  induction x with
  | nil => simp [splitOnCh]
  | cons c x ih =>
    have hc : (c == sep) = false := hx c (List.mem_cons_self c x)
    have hx' : ∀ d ∈ x, (d == sep) = false :=
      fun d hd => hx d (List.mem_cons_of_mem c hd)
    simp [splitOnCh, hc, ih hx']

theorem splitOnCh_of_no_sep (sep : Char) (x : Str)
    (hx : ∀ c ∈ x, (c == sep) = false) :
    splitOnCh sep x = [x] := by
  induction x with
  | nil => rfl
  | cons c x ih =>
    have hc : (c == sep) = false := hx c (List.mem_cons_self c x)
    have hx' : ∀ d ∈ x, (d == sep) = false :=
      fun d hd => hx d (List.mem_cons_of_mem c hd)
    simp [splitOnCh, hc, ih hx']

/-- A dotted-quad token with an optional CIDR suffix, the shape of every
text fragment the `IPV4_PATTERN` regex can capture. -/
def ipDottedQuad (o1 o2 o3 o4 : Str) (cidr : Option Str) : Str :=
  o1 ++ ('.' :: (o2 ++ ('.' :: (o3 ++ ('.' :: (o4 ++
    (match cidr with
     | some cd => '/' :: cd
     | none => [])))))))

theorem ipv4Validator_spec (o1 o2 o3 o4 : Str) (cidr : Option Str)
    (h1 : o1 ≠ [] ∧ ∀ c ∈ o1, isDigitCh c = true)
    (h2 : o2 ≠ [] ∧ ∀ c ∈ o2, isDigitCh c = true)
    (h3 : o3 ≠ [] ∧ ∀ c ∈ o3, isDigitCh c = true)
    (h4 : o4 ≠ [] ∧ ∀ c ∈ o4, isDigitCh c = true) :
    ipv4Validator (ipDottedQuad o1 o2 o3 o4 cidr) = true ↔
      digitsVal o1 ≤ 255 ∧ digitsVal o2 ≤ 255 ∧ digitsVal o3 ≤ 255 ∧
        digitsVal o4 ≤ 255 := by
  have hmem : ∀ c ∈ o1 ++ ('.' :: (o2 ++ ('.' :: (o3 ++ ('.' :: o4))))),
      c = '.' ∨ isDigitCh c = true := by
    intro c hcm
    rcases List.mem_append.mp hcm with hc | hc
    · exact Or.inr (h1.2 c hc)
    · rcases List.mem_cons.mp hc with rfl | hc
      · exact Or.inl rfl
      · rcases List.mem_append.mp hc with hc | hc
        · exact Or.inr (h2.2 c hc)
        · rcases List.mem_cons.mp hc with rfl | hc
          · exact Or.inl rfl
          · rcases List.mem_append.mp hc with hc | hc
            · exact Or.inr (h3.2 c hc)
            · rcases List.mem_cons.mp hc with rfl | hc
              · exact Or.inl rfl
              · exact Or.inr (h4.2 c hc)
  have hnoslash : ∀ c ∈ o1 ++ ('.' :: (o2 ++ ('.' :: (o3 ++ ('.' :: o4))))),
      (c == '/') = false := by
    intro c hcm
    rcases hmem c hcm with rfl | hdig
    · decide
    · exact digit_beq_eq_false hdig (Or.inl (by decide))
  have hq : (splitOnCh '/' (ipDottedQuad o1 o2 o3 o4 cidr)).headD []
      = o1 ++ ('.' :: (o2 ++ ('.' :: (o3 ++ ('.' :: o4))))) := by
    cases cidr with
    | none =>
      have he : ipDottedQuad o1 o2 o3 o4 none
          = o1 ++ ('.' :: (o2 ++ ('.' :: (o3 ++ ('.' :: o4))))) := by
        simp [ipDottedQuad]
      rw [he, splitOnCh_of_no_sep '/' _ hnoslash]
      rfl
    | some cd =>
      have he : ipDottedQuad o1 o2 o3 o4 (some cd)
          = (o1 ++ ('.' :: (o2 ++ ('.' :: (o3 ++ ('.' :: o4)))))) ++ '/' :: cd := by
        simp [ipDottedQuad]
      rw [he, splitOnCh_append_sep '/' _ cd hnoslash]
      rfl
  have hdot : ∀ (o : Str), (∀ c ∈ o, isDigitCh c = true) →
      ∀ c ∈ o, (c == '.') = false := fun o ho c hc =>
    digit_beq_eq_false (ho c hc) (Or.inl (by decide))
  have hsplit : splitOnCh '.' (o1 ++ ('.' :: (o2 ++ ('.' :: (o3 ++ ('.' :: o4))))))
      = [o1, o2, o3, o4] := by
    rw [splitOnCh_append_sep '.' o1 _ (hdot o1 h1.2),
        splitOnCh_append_sep '.' o2 _ (hdot o2 h2.2),
        splitOnCh_append_sep '.' o3 _ (hdot o3 h3.2),
        splitOnCh_of_no_sep '.' o4 (hdot o4 h4.2)]
  simp only [ipv4Validator, hq, hsplit, List.all_cons, List.all_nil,
    jsParseInt10_digits h1.1 h1.2, jsParseInt10_digits h2.1 h2.2,
    jsParseInt10_digits h3.1 h3.2, jsParseInt10_digits h4.1 h4.2,
    Bool.and_true, Bool.and_eq_true, decide_eq_true_eq]
  omega

/-- C5: the IPv4 validator accepts a dotted-quad token (with an optional
CIDR suffix, which it strips and ignores) exactly when each of the four
octets parses to an integer between 0 and 255; concretely, the full
highlighter colorizes `192.168.1.1` and `10.0.0.0/8` as IP addresses and
leaves `999.1.1.1` (octet out of range) and `1.2.3` (not a dotted quad)
unchanged. -/
theorem ipv4_classifier_octet_range (o1 o2 o3 o4 : Str) (cidr : Option Str)
    (h1 : o1 ≠ [] ∧ ∀ c ∈ o1, isDigitCh c = true)
    (h2 : o2 ≠ [] ∧ ∀ c ∈ o2, isDigitCh c = true)
    (h3 : o3 ≠ [] ∧ ∀ c ∈ o3, isDigitCh c = true)
    (h4 : o4 ≠ [] ∧ ∀ c ∈ o4, isDigitCh c = true) :
    (ipv4Validator (ipDottedQuad o1 o2 o3 o4 cidr) = true ↔
      digitsVal o1 ≤ 255 ∧ digitsVal o2 ≤ 255 ∧ digitsVal o3 ≤ 255 ∧
        digitsVal o4 ≤ 255) ∧
    highlightCiscoOutput "192.168.1.1".data true
      = "\x1b[38;5;221m192.168.1.1\x1b[0m".data ∧
    highlightCiscoOutput "10.0.0.0/8".data true
      = "\x1b[38;5;221m10.0.0.0/8\x1b[0m".data ∧
    highlightCiscoOutput "999.1.1.1".data true = "999.1.1.1".data ∧
    highlightCiscoOutput "1.2.3".data true = "1.2.3".data :=
  ⟨ipv4Validator_spec o1 o2 o3 o4 cidr h1 h2 h3 h4,
   by decide, by decide, by decide, by decide⟩

/-- Witness for `ipv4_classifier_octet_range` at the token
`192.168.1.1`: the validator accepts because every octet is at most
255. -/
theorem ipv4_classifier_octet_range_witness :
    ipv4Validator (ipDottedQuad "192".data "168".data "1".data "1".data
      none) = true :=
  (ipv4_classifier_octet_range "192".data "168".data "1".data "1".data none
    (by decide) (by decide) (by decide) (by decide)).1.mpr (by decide)

end Packet
